import Mathlib

/-!
Verification of the JSX `Condition` / `Switch` desugaring plugin
(`src/lib.rs`).  The syntax-tree fragment the transform operates on is
embedded shallowly: each Rust visitor method becomes a Lean function, the
visitor's single `current_context` slot becomes an explicit `WrapperType`
parameter (the Rust code save/restores it around recursive calls, which is
exactly reader-style threading), and `swc` spans / syntax contexts are
dropped because the transform never branches on them.
-/

/-- Tag names and attribute names, `src/lib.rs` lines 11-19. -/
def CONDITION_TAG : String := "Condition"

def SWITCH_TAG : String := "Switch"

def IF_ATTR : String := "if"

def ELSE_ATTR : String := "else"

def SHORT_CIRCUIT_ATTR : String := "shortCircuit"

def BOOLEAN_FUNC : String := "Boolean"

def REACT_FRAGMENT : String := "React.Fragment"

def CONDITION_PLACEHOLDER : String := "__CONDITION_PLACEHOLDER__"

def SWITCH_PLACEHOLDER : String := "__SWITCH_PLACEHOLDER__"

/-- `JSXElementName`: an identifier tag or a member tag such as `Switch.Case`
(the code only ever inspects a one-level member with an identifier object,
`is_switch_case_element`, lines 264-269). -/
inductive JSXElementName where
  | ident (sym : String)
  | jsxMemberExpr (obj : String) (prop : String)
  deriving DecidableEq, Repr

/-- Literals: the code manufactures `null` (line 57) and `true` (line 661);
strings cover literal attribute values and other opaque literals. -/
inductive Lit where
  | null
  | bool (value : Bool)
  | str (value : String)
  deriving DecidableEq, Repr

/-- The visitor's position context, `WrapperType` (lines 25-30). -/
inductive WrapperType where
  | Jsx
  | Assignment
  | Return
  deriving DecidableEq, Repr

mutual

/-- The expression grammar the transform inspects or constructs.  Everything
else in `swc`'s `Expr` is handled by `fold_children_with`, i.e. structural
recursion that the embedding does not need to enumerate.  `assign` keeps the
left-hand side opaque (`fold_assign_expr` only folds `expr.right`,
lines 137-142). -/
inductive Expr where
  | jsxElement (elem : JSXElement)
  | jsxFragment (frag : JSXFragment)
  | cond (test : Expr) (cons : Expr) (alt : Expr)
  | call (callee : Expr) (args : List Expr)
  | paren (expr : Expr)
  | unaryBang (arg : Expr)
  | binAnd (left : Expr) (right : Expr)
  | assign (target : String) (right : Expr)
  | ident (sym : String)
  | lit (l : Lit)

/-- `JSXElement`, reduced to the fields the transform reads: tag name,
attributes and children (spans and the closing tag mirror the opening one). -/
inductive JSXElement where
  | mk (name : JSXElementName) (attrs : List JSXAttr) (children : List JSXElementChild)

inductive JSXFragment where
  | mk (children : List JSXElementChild)

/-- `JSXElementChild`. -/
inductive JSXElementChild where
  | jsxElement (elem : JSXElement)
  | jsxFragment (frag : JSXFragment)
  | jsxExprContainer (container : JSXExprContainer)
  | jsxText (value : String)

/-- `JSXExprContainer`; `none` models `JSXExpr::JSXEmptyExpr`. -/
inductive JSXExprContainer where
  | mk (expr : Option Expr)

/-- `JSXAttr` with an identifier name; `value = none` models a bare attribute
such as `else` or `shortCircuit`. -/
inductive JSXAttr where
  | mk (name : String) (value : Option JSXAttrValue)

/-- `JSXAttrValue` variants the extractor distinguishes: a literal (e.g. a
string) versus an expression container (lines 163-167). -/
inductive JSXAttrValue where
  | lit (l : Lit)
  | jsxExprContainer (container : JSXExprContainer)

end

def JSXElement.name : JSXElement → JSXElementName
  | .mk n _ _ => n

def JSXElement.attrs : JSXElement → List JSXAttr
  | .mk _ a _ => a

def JSXElement.children : JSXElement → List JSXElementChild
  | .mk _ _ c => c

def JSXFragment.children : JSXFragment → List JSXElementChild
  | .mk c => c

def JSXAttr.name : JSXAttr → String
  | .mk n _ => n

def JSXAttr.value : JSXAttr → Option JSXAttrValue
  | .mk _ v => v

/-- Statements the visitor overrides hooks for: `fold_return_stmt`
(lines 123-128), `fold_var_declarator` (130-135); other statements fold their
expressions under the inherited (default `Jsx`) context. -/
inductive Stmt where
  | returnStmt (arg : Option Expr)
  | varDeclarator (init : Option Expr)
  | exprStmt (expr : Expr)

abbrev Program := List Stmt

namespace TransformVisitor

/-- `null_expr` (line 57). -/
def null_expr : Expr := .lit .null

/-- The `Boolean(cond)` coercion call (lines 200-209). -/
def boolean_call (condition : Expr) : Expr :=
  .call (.ident BOOLEAN_FUNC) [condition]

/-- The `<React.Fragment>…</React.Fragment>` wrapper element the rewrites
build repeatedly (e.g. lines 222-239, 328-343, 461-476, 596-614). -/
def mk_react_fragment_element (children : List JSXElementChild) : JSXElement :=
  .mk (.ident REACT_FRAGMENT) [] children

/-- The `__CONDITION_PLACEHOLDER__` carrier element the rewrites build
repeatedly (e.g. lines 242-259, 358-375, 576-593): one expression-container
child holding the carried expression. -/
def mk_placeholder_element (carried : Expr) : JSXElement :=
  .mk (.ident CONDITION_PLACEHOLDER) []
    [.jsxExprContainer (.mk (some carried))]

/-- `extract_condition_from_attrs` (lines 158-173): first `if`-named attribute
whose value is an expression container holding a real expression; any other
`if`-shaped attribute is skipped and the scan continues. -/
def extract_condition_from_attrs : List JSXAttr → Option Expr
  | [] => none
  | .mk name value :: rest =>
    if name = IF_ATTR then
      match value with
      | some (.jsxExprContainer (.mk (some condition_expr))) => some condition_expr
      | _ => extract_condition_from_attrs rest
    else extract_condition_from_attrs rest

/-- `has_else_attr` (lines 175-181). -/
def has_else_attr (attrs : List JSXAttr) : Bool :=
  attrs.any fun attr => attr.name = ELSE_ATTR

/-- `extract_short_circuit_attr` (lines 276-282). -/
def extract_short_circuit_attr (attrs : List JSXAttr) : Bool :=
  attrs.any fun attr => attr.name = SHORT_CIRCUIT_ATTR

/-- `is_switch_case_element` (lines 264-269). -/
def is_switch_case_element (element : JSXElement) : Bool :=
  match element.name with
  | .jsxMemberExpr obj prop => obj = "Switch" && prop = "Case"
  | _ => false

/-- `has_switch_case_children` (lines 271-274). -/
def has_switch_case_children (children : List JSXElementChild) : Bool :=
  children.any fun child =>
    match child with
    | .jsxElement elem => is_switch_case_element elem
    | _ => false

/-- `is_non_whitespace_child` (lines 284-290); `!text.value.trim().is_empty()`
is "not every character is whitespace", spelled over the character list so it
computes by reduction. -/
def is_non_whitespace_child : JSXElementChild → Bool
  | .jsxText text => !text.data.all Char.isWhitespace
  | _ => true

/-- `filter_non_whitespace_children` (lines 292-296). -/
def filter_non_whitespace_children (children : List JSXElementChild) :
    List JSXElementChild :=
  children.filter is_non_whitespace_child

/-- `create_conditional_jsx` (lines 187-262).  The children go into the
fragment exactly as received: the method never re-folds them. -/
def create_conditional_jsx (ctx : WrapperType) (condition : Expr)
    (children : List JSXElementChild) : JSXElement :=
  let fragment := JSXFragment.mk children
  let test_expr :=
    match ctx with
    | .Return => condition
    | .Assignment | .Jsx => boolean_call condition
  let conditional_expr := Expr.cond test_expr (.jsxFragment fragment) null_expr
  match ctx with
  | .Jsx =>
    mk_react_fragment_element
      [.jsxExprContainer (.mk (some conditional_expr))]
  | .Return | .Assignment => mk_placeholder_element conditional_expr

/-- The case-collection loop of `create_switch_transformation`
(lines 312-325): normal branches accumulate in source order, an `else`-marked
case overwrites the recorded else-branch each time it is seen. -/
def collect_switch_cases_loop
    (switch_cases : List (Expr × List JSXElementChild))
    (else_case : Option (List JSXElementChild)) :
    List JSXElementChild →
      List (Expr × List JSXElementChild) × Option (List JSXElementChild)
  | [] => (switch_cases, else_case)
  | child :: rest =>
    match child with
    | .jsxElement element =>
      if is_switch_case_element element then
        match extract_condition_from_attrs element.attrs with
        | some condition_expr =>
          collect_switch_cases_loop
            (switch_cases ++ [(condition_expr, element.children)]) else_case rest
        | none =>
          if has_else_attr element.attrs then
            collect_switch_cases_loop switch_cases (some element.children) rest
          else
            collect_switch_cases_loop switch_cases else_case rest
      else collect_switch_cases_loop switch_cases else_case rest
    | _ => collect_switch_cases_loop switch_cases else_case rest

def collect_switch_cases (children : List JSXElementChild) :
    List (Expr × List JSXElementChild) × Option (List JSXElementChild) :=
  collect_switch_cases_loop [] none children

/-- The branch-content packaging that `create_short_circuit_switch` performs
twice verbatim (else-branch base, lines 495-521, and each normal branch,
lines 541-564): drop whitespace-only text children, return a lone element
child bare, otherwise wrap the filtered children in a fragment. -/
def case_children_expr (children : List JSXElementChild) : Expr :=
  match filter_non_whitespace_children children with
  | [JSXElementChild.jsxElement element] => .jsxElement element
  | [first_child] => .jsxFragment (.mk [first_child])
  | non_whitespace_children => .jsxFragment (.mk non_whitespace_children)

/-- The short-circuit test (lines 525-539): raw condition in `Return` and
`Assignment` context, `Boolean(...)` coercion in `Jsx` context. -/
def short_circuit_test (ctx : WrapperType) (condition : Expr) : Expr :=
  match ctx with
  | .Return | .Assignment => condition
  | .Jsx => boolean_call condition

/-- The reverse-order accumulation loop of `create_short_circuit_switch`
(lines 524-572): iterating the cases from the back and wrapping the
accumulator as the false arm each time is a right fold in source order. -/
def build_short_circuit_chain (ctx : WrapperType) :
    List (Expr × List JSXElementChild) → Expr → Expr
  | [], result => result
  | (condition, children) :: rest, result =>
    .cond (short_circuit_test ctx condition) (case_children_expr children)
      (build_short_circuit_chain ctx rest result)

/-- `create_short_circuit_switch` (lines 494-616). -/
def create_short_circuit_switch (ctx : WrapperType)
    (switch_cases : List (Expr × List JSXElementChild))
    (else_case : Option (List JSXElementChild)) : JSXElement :=
  let base :=
    match else_case with
    | some else_children => case_children_expr else_children
    | none => null_expr
  let result_expr := build_short_circuit_chain ctx switch_cases base
  match ctx with
  | .Return | .Assignment => mk_placeholder_element result_expr
  | .Jsx =>
    mk_react_fragment_element
      [.jsxExprContainer (.mk (some result_expr))]

/-- The else-guard loop of `create_parallel_switch` (lines 658-686):
`!c1 && !c2 && …` built left-to-right, or the literal `true` when there are
no normal branches. -/
def parallel_else_condition : List Expr → Expr
  | [] => .lit (.bool true)
  | condition :: rest =>
    rest.foldl (fun combined c => .binAnd combined (.unaryBang c))
      (.unaryBang condition)

/-- `create_parallel_switch` (lines 618-716): each branch becomes an
independent `cond ? <>children</> : null` container child (children kept
verbatim, condition uncoerced), then the optional else branch guarded by the
negated conjunction of every branch condition. -/
def create_parallel_switch
    (switch_cases : List (Expr × List JSXElementChild))
    (else_case : Option (List JSXElementChild)) : JSXElement :=
  let result_children := switch_cases.map fun case =>
    JSXElementChild.jsxExprContainer
      (.mk (some (.cond case.1 (.jsxFragment (.mk case.2)) null_expr)))
  let all_children :=
    match else_case with
    | some else_children =>
      result_children ++
        [JSXElementChild.jsxExprContainer
          (.mk (some (.cond (parallel_else_condition (switch_cases.map Prod.fst))
            (.jsxFragment (.mk else_children)) null_expr)))]
    | none => result_children
  mk_react_fragment_element all_children

/-- `create_switch_transformation` (lines 311-492): collect the cases, then
dispatch on the three shapes — nothing collected, else-only, at least one
normal branch (where the evaluation mode is chosen). -/
def create_switch_transformation (ctx : WrapperType)
    (children : List JSXElementChild) (short_circuit : Bool) : JSXElement :=
  let collected := collect_switch_cases children
  match collected.1, collected.2 with
  | [], none => mk_react_fragment_element []
  | [], some else_children =>
    let non_whitespace_children := filter_non_whitespace_children else_children
    match non_whitespace_children with
    | [JSXElementChild.jsxElement element] =>
      (match ctx with
       | .Return | .Assignment => mk_placeholder_element (.jsxElement element)
       | .Jsx => element)
    | [first_child] =>
      (match ctx with
       | .Return | .Assignment =>
         mk_placeholder_element (.jsxFragment (.mk [first_child]))
       | .Jsx => mk_react_fragment_element [first_child])
    | kept_children =>
      (match ctx with
       | .Return | .Assignment =>
         mk_placeholder_element (.jsxFragment (.mk kept_children))
       | .Jsx => mk_react_fragment_element kept_children)
  | switch_cases, else_case =>
    let effective_short_circuit :=
      short_circuit ||
        ((match ctx with
          | .Return | .Assignment => true
          | .Jsx => false) &&
         decide (switch_cases.length ≤ 1) && else_case.isNone)
    if effective_short_circuit then
      create_short_circuit_switch ctx switch_cases else_case
    else create_parallel_switch switch_cases else_case

mutual

/-- `fold_expr` (lines 144-155) together with swc's default
`fold_children_with` recursion for the expression forms the visitor does not
override; `fold_assign_expr` (lines 137-142) switches the context to
`Assignment` for the right-hand side. -/
def fold_expr (ctx : WrapperType) : Expr → Expr
  | .jsxElement elem => .jsxElement (fold_jsx_element ctx elem)
  | .jsxFragment frag => .jsxFragment (fold_jsx_fragment frag)
  | .cond test cons alt =>
    .cond (fold_expr ctx test) (fold_expr ctx cons) (fold_expr ctx alt)
  | .call callee args => .call (fold_expr ctx callee) (fold_expr_list ctx args)
  | .paren e => .paren (fold_expr ctx e)
  | .unaryBang arg => .unaryBang (fold_expr ctx arg)
  | .binAnd left right => .binAnd (fold_expr ctx left) (fold_expr ctx right)
  | .assign target right => .assign target (fold_expr .Assignment right)
  | .ident sym => .ident sym
  | .lit l => .lit l

/-- `fold_jsx_element` (lines 72-89): rewrite a `Condition` tag whose `if`
condition extracts, rewrite a `Switch` tag that has `Switch.Case` children,
otherwise copy the element and fold only its children (attributes are never
folded). -/
def fold_jsx_element (ctx : WrapperType) : JSXElement → JSXElement
  | .mk name attrs children =>
    match name with
    | .ident sym =>
      if sym = CONDITION_TAG then
        match extract_condition_from_attrs attrs with
        | some condition_expr => create_conditional_jsx ctx condition_expr children
        | none => .mk name attrs (fold_children children)
      else if sym = SWITCH_TAG then
        if has_switch_case_children children then
          create_switch_transformation ctx children (extract_short_circuit_attr attrs)
        else .mk name attrs (fold_children children)
      else .mk name attrs (fold_children children)
    | _ => .mk name attrs (fold_children children)

/-- `fold_jsx_element_child` (lines 91-104): every child is folded inside
`with_jsx_context` (lines 298-309), i.e. under `Jsx` context. -/
def fold_jsx_element_child : JSXElementChild → JSXElementChild
  | .jsxElement elem => .jsxElement (fold_jsx_element .Jsx elem)
  | .jsxFragment frag => .jsxFragment (fold_jsx_fragment frag)
  | .jsxExprContainer container =>
    .jsxExprContainer (fold_jsx_expr_container container)
  | .jsxText value => .jsxText value

/-- `fold_jsx_fragment` (lines 106-109): children only; the per-child hook
resets the context, so fragment folding is context-independent. -/
def fold_jsx_fragment : JSXFragment → JSXFragment
  | .mk children => .mk (fold_children children)

/-- `fold_jsx_expr_container` (lines 111-121): the contained expression is
folded under `Jsx` context; an empty container passes through. -/
def fold_jsx_expr_container : JSXExprContainer → JSXExprContainer
  | .mk none => .mk none
  | .mk (some e) => .mk (some (fold_expr .Jsx e))

def fold_children : List JSXElementChild → List JSXElementChild
  | [] => []
  | child :: rest => fold_jsx_element_child child :: fold_children rest

def fold_expr_list (ctx : WrapperType) : List Expr → List Expr
  | [] => []
  | e :: rest => fold_expr ctx e :: fold_expr_list ctx rest

end

/-- Statement folding: `fold_return_stmt` pushes `Return` around the operand,
`fold_var_declarator` pushes `Assignment` around the initializer; a bare
expression statement folds under the visitor's default `Jsx` context. -/
def fold_stmt : Stmt → Stmt
  | .returnStmt arg => .returnStmt (arg.map (fold_expr .Return))
  | .varDeclarator init => .varDeclarator (init.map (fold_expr .Assignment))
  | .exprStmt e => .exprStmt (fold_expr .Jsx e)

def fold_program (p : Program) : Program :=
  p.map fold_stmt

end TransformVisitor

namespace PostTransformVisitor

/-- `unwrap_single_element_fragments` (lines 722-747): on a conditional,
if the true arm is a fragment with exactly one non-whitespace child and that
child is an element, replace the arm by the bare element; recurse only into
the false arm.  Anything that is not a conditional is returned untouched. -/
def unwrap_single_element_fragments : Expr → Expr
  | .cond test cons alt =>
    let cons' :=
      match cons with
      | .jsxFragment (.mk children) =>
        if (children.filter TransformVisitor.is_non_whitespace_child).length = 1 then
          match children.find? TransformVisitor.is_non_whitespace_child with
          | some (.jsxElement element) => .jsxElement element
          | _ => cons
        else cons
      | _ => cons
    .cond test cons' (unwrap_single_element_fragments alt)
  | e => e

/-- The parenthesization fix-up the post pass applies to the already-folded
inner expression of a `Paren` node (lines 774-810): a conditional whose
consequent is a multi-child or newline-containing element, or any fragment,
gets the consequent re-parenthesized and the outer parentheses dropped; any
other conditional just loses the outer parentheses; every other expression
keeps them. -/
def paren_fixup (inner : Expr) : Expr :=
  match inner with
  | .cond test cons alt =>
    let needs_inner_parens :=
      match cons with
      | .jsxElement (.mk _ _ elem_children) =>
        decide (elem_children.length > 1) ||
          elem_children.any fun child =>
            match child with
            | .jsxText text => text.data.contains '\n'
            | _ => false
      | .jsxFragment _ => true
      | _ => false
    if needs_inner_parens then .cond test (.paren cons) alt
    else .cond test cons alt
  | _ => .paren inner

mutual

/-- `PostTransformVisitor::fold_expr` (lines 750-814): strip a
`__CONDITION_PLACEHOLDER__` element down to the carried expression (returned
as-is, no re-folding, line 758), run `unwrap_single_element_fragments` on the
expression carried by a `__SWITCH_PLACEHOLDER__` element (line 766), fix up
parenthesized conditionals, and otherwise recurse structurally. -/
def fold_expr : Expr → Expr
  | .jsxElement (.mk name attrs children) =>
    if name = .ident CONDITION_PLACEHOLDER then
      match children with
      | .jsxExprContainer (.mk (some inner_expr)) :: _ => inner_expr
      | _ => .jsxElement (fold_jsx_element (.mk name attrs children))
    else if name = .ident SWITCH_PLACEHOLDER then
      match children with
      | .jsxExprContainer (.mk (some inner_expr)) :: _ =>
        unwrap_single_element_fragments inner_expr
      | _ => .jsxElement (fold_jsx_element (.mk name attrs children))
    else .jsxElement (fold_jsx_element (.mk name attrs children))
  | .paren inner => paren_fixup (fold_expr inner)
  | .jsxFragment frag => .jsxFragment (fold_jsx_fragment frag)
  | .cond test cons alt => .cond (fold_expr test) (fold_expr cons) (fold_expr alt)
  | .call callee args => .call (fold_expr callee) (fold_expr_list args)
  | .unaryBang arg => .unaryBang (fold_expr arg)
  | .binAnd left right => .binAnd (fold_expr left) (fold_expr right)
  | .assign target right => .assign target (fold_expr right)
  | .ident sym => .ident sym
  | .lit l => .lit l

/-- `PostTransformVisitor::fold_jsx_element` (lines 818-821): children only;
attributes are never folded, and no placeholder stripping happens here. -/
def fold_jsx_element : JSXElement → JSXElement
  | .mk name attrs children => .mk name attrs (fold_children children)

/-- The default (not overridden) child/fragment/container recursion of the
post pass. -/
def fold_jsx_element_child : JSXElementChild → JSXElementChild
  | .jsxElement elem => .jsxElement (fold_jsx_element elem)
  | .jsxFragment frag => .jsxFragment (fold_jsx_fragment frag)
  | .jsxExprContainer container => .jsxExprContainer (fold_jsx_expr_container container)
  | .jsxText value => .jsxText value

def fold_jsx_fragment : JSXFragment → JSXFragment
  | .mk children => .mk (fold_children children)

def fold_jsx_expr_container : JSXExprContainer → JSXExprContainer
  | .mk none => .mk none
  | .mk (some e) => .mk (some (fold_expr e))

def fold_children : List JSXElementChild → List JSXElementChild
  | [] => []
  | child :: rest => fold_jsx_element_child child :: fold_children rest

def fold_expr_list : List Expr → List Expr
  | [] => []
  | e :: rest => fold_expr e :: fold_expr_list rest

end

def fold_stmt : Stmt → Stmt
  | .returnStmt arg => .returnStmt (arg.map fold_expr)
  | .varDeclarator init => .varDeclarator (init.map fold_expr)
  | .exprStmt e => .exprStmt (fold_expr e)

def fold_program (p : Program) : Program :=
  p.map fold_stmt

end PostTransformVisitor

/-- `process_transform` (lines 824-828): the primary rewrite followed by the
post pass. -/
def process_transform (p : Program) : Program :=
  PostTransformVisitor.fold_program (TransformVisitor.fold_program p)

/-!
Statement vocabulary: purely structural tree predicates used to phrase the
spec's claims.  They are not part of the transform; each is a plain
tree-membership test.
-/

mutual

/-- No element anywhere in the expression is tagged with the identifier `t`
(attribute values included). -/
def tag_free_expr (t : String) : Expr → Bool
  | .jsxElement elem => tag_free_element t elem
  | .jsxFragment frag => tag_free_fragment t frag
  | .cond test cons alt =>
    tag_free_expr t test && tag_free_expr t cons && tag_free_expr t alt
  | .call callee args => tag_free_expr t callee && tag_free_expr_list t args
  | .paren e => tag_free_expr t e
  | .unaryBang arg => tag_free_expr t arg
  | .binAnd left right => tag_free_expr t left && tag_free_expr t right
  | .assign _ right => tag_free_expr t right
  | .ident _ => true
  | .lit _ => true

def tag_free_element (t : String) : JSXElement → Bool
  | .mk name attrs children =>
    !decide (name = JSXElementName.ident t) &&
      tag_free_attrs t attrs && tag_free_children t children

def tag_free_fragment (t : String) : JSXFragment → Bool
  | .mk children => tag_free_children t children

def tag_free_child (t : String) : JSXElementChild → Bool
  | .jsxElement elem => tag_free_element t elem
  | .jsxFragment frag => tag_free_fragment t frag
  | .jsxExprContainer container => tag_free_container t container
  | .jsxText _ => true

def tag_free_container (t : String) : JSXExprContainer → Bool
  | .mk none => true
  | .mk (some e) => tag_free_expr t e

def tag_free_attr (t : String) : JSXAttr → Bool
  | .mk _ none => true
  | .mk _ (some (.lit _)) => true
  | .mk _ (some (.jsxExprContainer container)) => tag_free_container t container

def tag_free_attrs (t : String) : List JSXAttr → Bool
  | [] => true
  | attr :: rest => tag_free_attr t attr && tag_free_attrs t rest

def tag_free_children (t : String) : List JSXElementChild → Bool
  | [] => true
  | child :: rest => tag_free_child t child && tag_free_children t rest

def tag_free_expr_list (t : String) : List Expr → Bool
  | [] => true
  | e :: rest => tag_free_expr t e && tag_free_expr_list t rest

end

def tag_free_stmt (t : String) : Stmt → Bool
  | .returnStmt none => true
  | .returnStmt (some e) => tag_free_expr t e
  | .varDeclarator none => true
  | .varDeclarator (some e) => tag_free_expr t e
  | .exprStmt e => tag_free_expr t e

def tag_free_program (t : String) (p : Program) : Bool :=
  p.all (tag_free_stmt t)

/-- Neither placeholder-marker tag occurs anywhere in the program. -/
def placeholder_free_program (p : Program) : Bool :=
  tag_free_program CONDITION_PLACEHOLDER p && tag_free_program SWITCH_PLACEHOLDER p

mutual

/-- No parenthesized conditional expression occurs anywhere in the tree. -/
def paren_cond_free_expr : Expr → Bool
  | .paren (.cond _ _ _) => false
  | .paren e => paren_cond_free_expr e
  | .jsxElement elem => paren_cond_free_element elem
  | .jsxFragment frag => paren_cond_free_fragment frag
  | .cond test cons alt =>
    paren_cond_free_expr test && paren_cond_free_expr cons && paren_cond_free_expr alt
  | .call callee args => paren_cond_free_expr callee && paren_cond_free_expr_list args
  | .unaryBang arg => paren_cond_free_expr arg
  | .binAnd left right => paren_cond_free_expr left && paren_cond_free_expr right
  | .assign _ right => paren_cond_free_expr right
  | .ident _ => true
  | .lit _ => true

def paren_cond_free_element : JSXElement → Bool
  | .mk _ attrs children =>
    paren_cond_free_attrs attrs && paren_cond_free_children children

def paren_cond_free_fragment : JSXFragment → Bool
  | .mk children => paren_cond_free_children children

def paren_cond_free_child : JSXElementChild → Bool
  | .jsxElement elem => paren_cond_free_element elem
  | .jsxFragment frag => paren_cond_free_fragment frag
  | .jsxExprContainer container => paren_cond_free_container container
  | .jsxText _ => true

def paren_cond_free_container : JSXExprContainer → Bool
  | .mk none => true
  | .mk (some e) => paren_cond_free_expr e

def paren_cond_free_attr : JSXAttr → Bool
  | .mk _ none => true
  | .mk _ (some (.lit _)) => true
  | .mk _ (some (.jsxExprContainer container)) => paren_cond_free_container container

def paren_cond_free_attrs : List JSXAttr → Bool
  | [] => true
  | attr :: rest => paren_cond_free_attr attr && paren_cond_free_attrs rest

def paren_cond_free_children : List JSXElementChild → Bool
  | [] => true
  | child :: rest => paren_cond_free_child child && paren_cond_free_children rest

def paren_cond_free_expr_list : List Expr → Bool
  | [] => true
  | e :: rest => paren_cond_free_expr e && paren_cond_free_expr_list rest

end

def paren_cond_free_stmt : Stmt → Bool
  | .returnStmt none => true
  | .returnStmt (some e) => paren_cond_free_expr e
  | .varDeclarator none => true
  | .varDeclarator (some e) => paren_cond_free_expr e
  | .exprStmt e => paren_cond_free_expr e

def paren_cond_free_program (p : Program) : Bool :=
  p.all paren_cond_free_stmt

mutual

/-- Invariant of primary-rewriter output: every `__CONDITION_PLACEHOLDER__`
element occurs at an expression position, in the one-container shape the
post pass strips, with a carried expression that is itself placeholder-free;
placeholder elements never occur at child positions (where the post pass would
not strip them). -/
def stripped_expr : Expr → Bool
  | .jsxElement (.mk name attrs children) =>
    if name = JSXElementName.ident CONDITION_PLACEHOLDER then
      match children with
      | .jsxExprContainer (.mk (some payload)) :: _ =>
        tag_free_expr CONDITION_PLACEHOLDER payload
      | _ => false
    else stripped_element (.mk name attrs children)
  | .jsxFragment frag => stripped_fragment frag
  | .cond test cons alt => stripped_expr test && stripped_expr cons && stripped_expr alt
  | .call callee args => stripped_expr callee && stripped_expr_list args
  | .paren e => stripped_expr e
  | .unaryBang arg => stripped_expr arg
  | .binAnd left right => stripped_expr left && stripped_expr right
  | .assign _ right => stripped_expr right
  | .ident _ => true
  | .lit _ => true

def stripped_element : JSXElement → Bool
  | .mk name attrs children =>
    !decide (name = JSXElementName.ident CONDITION_PLACEHOLDER) &&
      tag_free_attrs CONDITION_PLACEHOLDER attrs && stripped_children children

def stripped_fragment : JSXFragment → Bool
  | .mk children => stripped_children children

def stripped_child : JSXElementChild → Bool
  | .jsxElement elem => stripped_element elem
  | .jsxFragment frag => stripped_fragment frag
  | .jsxExprContainer container => stripped_container container
  | .jsxText _ => true

def stripped_container : JSXExprContainer → Bool
  | .mk none => true
  | .mk (some e) => stripped_expr e

def stripped_children : List JSXElementChild → Bool
  | [] => true
  | child :: rest => stripped_child child && stripped_children rest

def stripped_expr_list : List Expr → Bool
  | [] => true
  | e :: rest => stripped_expr e && stripped_expr_list rest

end

def stripped_stmt : Stmt → Bool
  | .returnStmt none => true
  | .returnStmt (some e) => stripped_expr e
  | .varDeclarator none => true
  | .varDeclarator (some e) => stripped_expr e
  | .exprStmt e => stripped_expr e

def stripped_program (p : Program) : Bool :=
  p.all stripped_stmt

mutual

/-- Some element in the tree is a live `Condition` directive: tagged with the
conditional directive name and carrying an extractable `if` condition. -/
def contains_condition_directive_expr : Expr → Bool
  | .jsxElement elem => contains_condition_directive_element elem
  | .jsxFragment frag => contains_condition_directive_fragment frag
  | .cond test cons alt =>
    contains_condition_directive_expr test || contains_condition_directive_expr cons ||
      contains_condition_directive_expr alt
  | .call callee args =>
    contains_condition_directive_expr callee || contains_condition_directive_list args
  | .paren e => contains_condition_directive_expr e
  | .unaryBang arg => contains_condition_directive_expr arg
  | .binAnd left right =>
    contains_condition_directive_expr left || contains_condition_directive_expr right
  | .assign _ right => contains_condition_directive_expr right
  | .ident _ => false
  | .lit _ => false

def contains_condition_directive_element : JSXElement → Bool
  | .mk name attrs children =>
    (decide (name = JSXElementName.ident CONDITION_TAG) &&
      (TransformVisitor.extract_condition_from_attrs attrs).isSome) ||
    contains_condition_directive_children children

def contains_condition_directive_fragment : JSXFragment → Bool
  | .mk children => contains_condition_directive_children children

def contains_condition_directive_child : JSXElementChild → Bool
  | .jsxElement elem => contains_condition_directive_element elem
  | .jsxFragment frag => contains_condition_directive_fragment frag
  | .jsxExprContainer (.mk none) => false
  | .jsxExprContainer (.mk (some e)) => contains_condition_directive_expr e
  | .jsxText _ => false

def contains_condition_directive_children : List JSXElementChild → Bool
  | [] => false
  | child :: rest =>
    contains_condition_directive_child child || contains_condition_directive_children rest

def contains_condition_directive_list : List Expr → Bool
  | [] => false
  | e :: rest =>
    contains_condition_directive_expr e || contains_condition_directive_list rest

end

def contains_condition_directive_stmt : Stmt → Bool
  | .returnStmt none => false
  | .returnStmt (some e) => contains_condition_directive_expr e
  | .varDeclarator none => false
  | .varDeclarator (some e) => contains_condition_directive_expr e
  | .exprStmt e => contains_condition_directive_expr e

def contains_condition_directive_program (p : Program) : Bool :=
  p.any contains_condition_directive_stmt

/-- Left-associated conjunction of negations, written by recursion on the
last element so that left-association is visible in the definition itself:
the guard for conditions `c1 … cn` is `((!c1 && !c2) && …) && !cn`, and the
literal `true` for an empty list.  This is the spec's description of the
parallel else-guard, to be compared with `parallel_else_condition`. -/
def spec_negated_conjunction_rev : List Expr → Expr
  | [] => .lit (.bool true)
  | [condition] => .unaryBang condition
  | condition :: rest => .binAnd (spec_negated_conjunction_rev rest) (.unaryBang condition)

def spec_negated_conjunction (conditions : List Expr) : Expr :=
  spec_negated_conjunction_rev conditions.reverse

/-- The children of a child that qualifies as an `else`-marked case the
collector would record: a `Switch.Case` element whose `if` condition does not
extract but which carries the `else` marker. -/
def spec_else_case_children : JSXElementChild → Option (List JSXElementChild)
  | .jsxElement element =>
    if TransformVisitor.is_switch_case_element element &&
        (TransformVisitor.extract_condition_from_attrs element.attrs).isNone &&
        TransformVisitor.has_else_attr element.attrs then
      some element.children
    else none
  | _ => none

/-- The children of the last qualifying else-case in source order (the spec's
candidate rules were first-wins and last-wins). -/
def spec_last_else_children (children : List JSXElementChild) :
    Option (List JSXElementChild) :=
  children.reverse.findSome? spec_else_case_children

/-!
Concrete demonstration inputs used by the counterexamples and witnesses.
-/

/-- `<p>hi</p>`. -/
def demo_p_element : JSXElement := .mk (.ident "p") [] [.jsxText "hi"]

/-- `<Condition if={show}><p>hi</p></Condition>`. -/
def demo_condition_element : JSXElement :=
  .mk (.ident "Condition")
    [.mk "if" (some (.jsxExprContainer (.mk (some (.ident "show")))))]
    [.jsxElement demo_p_element]

/-- The previous directive nested as the only child of an outer
`<Condition if={outer}>…</Condition>`. -/
def demo_nested_condition_element : JSXElement :=
  .mk (.ident "Condition")
    [.mk "if" (some (.jsxExprContainer (.mk (some (.ident "outer")))))]
    [.jsxElement demo_condition_element]

/-- `<Switch.Case if={a}><X/></Switch.Case>`. -/
def demo_switch_case : JSXElement :=
  .mk (.jsxMemberExpr "Switch" "Case")
    [.mk "if" (some (.jsxExprContainer (.mk (some (.ident "a")))))]
    [.jsxElement (.mk (.ident "X") [] [])]

/-- `<Switch shortCircuit><Switch.Case if={a}><X/></Switch.Case></Switch>`. -/
def demo_switch_element : JSXElement :=
  .mk (.ident "Switch") [.mk "shortCircuit" none] [.jsxElement demo_switch_case]

/-- Does a one-statement program return a conditional whose consequent is a
fragment?  Projection used to separate trees without decidable equality on
the syntax types. -/
def return_cons_is_jsx_fragment : Program → Bool
  | [Stmt.returnStmt (some (.cond _ (.jsxFragment _) _))] => true
  | _ => false

/-- Does a one-statement program consist of a parenthesized expression? -/
def head_expr_is_paren : Program → Bool
  | [Stmt.exprStmt (.paren _)] => true
  | _ => false

/-- C3, counterexample.  For `return <Condition if={show}><p>hi</p></Condition>`
the claim asserts the final output is `show ? <p>hi</p> : null` with the bare
`<p>hi</p>` as consequent; the actual output keeps the fragment wrapper
around `<p>hi</p>`, so the two trees differ. -/
theorem return_condition_not_bare_element :
    process_transform [Stmt.returnStmt (some (.jsxElement demo_condition_element))] ≠
      [Stmt.returnStmt (some (.cond (.ident "show")
        (.jsxElement demo_p_element) TransformVisitor.null_expr))] :=
  fun h => absurd (congrArg return_cons_is_jsx_fragment h) (by decide)

/-- C3, amended.  Same input and context: the final output is
`show ? <><p>hi</p></> : null` — the test is the raw condition with no
boolean coercion, and the consequent is the fragment-wrapped `<p>hi</p>`
(the fragment wrapper of a plain conditional is never collapsed). -/
theorem return_condition_output_shape :
    process_transform [Stmt.returnStmt (some (.jsxElement demo_condition_element))] =
      [Stmt.returnStmt (some (.cond (.ident "show")
        (.jsxFragment (.mk [.jsxElement demo_p_element]))
        TransformVisitor.null_expr))] := rfl

/-- C1, counterexample.  A `Condition` directive nested as a child of another
`Condition` directive survives both passes: the final output still contains a
`Condition`-tagged element with an extractable `if` attribute, so nested
directives are not transformed after the outer rewrite. -/
theorem nested_condition_directive_survives :
    contains_condition_directive_program
      (process_transform
        [Stmt.returnStmt (some (.jsxElement demo_nested_condition_element))]) = true := rfl

/-- C2, counterexample.  An input that already contains a placeholder-tagged
element (with no children, a shape the post pass does not strip) reaches the
output untouched, so the unrestricted claim fails. -/
theorem input_placeholder_survives :
    placeholder_free_program
      (process_transform
        [Stmt.exprStmt (.jsxElement (.mk (.ident CONDITION_PLACEHOLDER) [] []))]) = false := rfl

/-- C6, counterexample.  A tree with neither directive tag is not always
returned unchanged: the post pass drops the parentheses around a hand-written
conditional expression. -/
theorem directive_free_paren_cond_rewritten :
    tag_free_program CONDITION_TAG
        [Stmt.exprStmt (.paren (.cond (.ident "a") (.ident "b") (.ident "x")))] = true ∧
    tag_free_program SWITCH_TAG
        [Stmt.exprStmt (.paren (.cond (.ident "a") (.ident "b") (.ident "x")))] = true ∧
    process_transform
        [Stmt.exprStmt (.paren (.cond (.ident "a") (.ident "b") (.ident "x")))] ≠
      [Stmt.exprStmt (.paren (.cond (.ident "a") (.ident "b") (.ident "x")))] :=
  ⟨rfl, rfl, fun h => absurd (congrArg head_expr_is_paren h) (by decide)⟩

/-- C7, counterexample.  A short-circuit switch rewritten in `Return` context
produces a placeholder carrying the plain-conditional marker tag — not a tag
distinct from it — because the primary pass never emits the switch marker. -/
theorem switch_rewrite_reuses_condition_placeholder_tag :
    (TransformVisitor.fold_jsx_element .Return demo_switch_element).name =
      .ident CONDITION_PLACEHOLDER ∧
    CONDITION_PLACEHOLDER ≠ SWITCH_PLACEHOLDER :=
  ⟨rfl, by decide⟩

/-- C9, counterexample.  A short-circuit switch branch with two elements and a
whitespace-only text child is emitted as a multi-child grouping in which the
whitespace-only text child has been deleted, not kept. -/
theorem short_circuit_grouping_drops_whitespace :
    TransformVisitor.is_non_whitespace_child (.jsxText "  ") = false ∧
    TransformVisitor.create_short_circuit_switch .Jsx
        [(.ident "a", [.jsxText "  ", .jsxElement (.mk (.ident "X") [] []),
          .jsxElement (.mk (.ident "Y") [] [])])] none =
      TransformVisitor.mk_react_fragment_element
        [.jsxExprContainer (.mk (some (.cond
          (TransformVisitor.boolean_call (.ident "a"))
          (.jsxFragment (.mk [.jsxElement (.mk (.ident "X") [] []),
            .jsxElement (.mk (.ident "Y") [] [])]))
          TransformVisitor.null_expr)))] :=
  ⟨rfl, rfl⟩

/-- The expression sitting in the consequent slot of the conditional carried by
a rewrite's first expression-container child. -/
def carried_conditional_cons : JSXElement → Option Expr
  | .mk _ _ (.jsxExprContainer (.mk (some (.cond _ cons _))) :: _) => some cons
  | _ => none

/-- C1, amended.  A rewritten `Condition` directive embeds its children
exactly as received — in every context the carried conditional's consequent is
the fragment of the original, untransformed children — and for a return
operand the whole pipeline ends with that verbatim fragment, so nested
directives inside the children are never transformed. -/
theorem condition_rewrite_embeds_children_verbatim
    (attrs : List JSXAttr) (children : List JSXElementChild) (condition : Expr)
    (hextract : TransformVisitor.extract_condition_from_attrs attrs = some condition) :
    (∀ ctx, carried_conditional_cons
        (TransformVisitor.fold_jsx_element ctx (.mk (.ident CONDITION_TAG) attrs children)) =
      some (.jsxFragment (.mk children))) ∧
    process_transform
        [Stmt.returnStmt (some (.jsxElement (.mk (.ident CONDITION_TAG) attrs children)))] =
      [Stmt.returnStmt (some (.cond condition (.jsxFragment (.mk children))
        TransformVisitor.null_expr))] := by
  constructor
  · intro ctx
    cases ctx <;>
      simp [TransformVisitor.fold_jsx_element, hextract,
        TransformVisitor.create_conditional_jsx, TransformVisitor.mk_react_fragment_element,
        TransformVisitor.mk_placeholder_element, carried_conditional_cons]
  · simp [process_transform, TransformVisitor.fold_program, TransformVisitor.fold_stmt,
      TransformVisitor.fold_expr, TransformVisitor.fold_jsx_element, hextract,
      TransformVisitor.create_conditional_jsx, TransformVisitor.mk_placeholder_element,
      PostTransformVisitor.fold_program, PostTransformVisitor.fold_stmt,
      PostTransformVisitor.fold_expr]

/-- Witness for C1's amended theorem at the concrete nested-directive input. -/
theorem condition_rewrite_embeds_children_verbatim_witness :
    TransformVisitor.extract_condition_from_attrs demo_condition_element.attrs =
      some (.ident "show") ∧
    carried_conditional_cons (TransformVisitor.fold_jsx_element .Jsx demo_condition_element) =
      some (.jsxFragment (.mk [.jsxElement demo_p_element])) :=
  ⟨rfl,
    (condition_rewrite_embeds_children_verbatim demo_condition_element.attrs
      [.jsxElement demo_p_element] (.ident "show") rfl).1 .Jsx⟩

/-- The attribute value is an expression container holding a real expression —
the only shape `extract_condition_from_attrs` accepts. -/
def is_plain_expression_value : Option JSXAttrValue → Bool
  | some (.jsxExprContainer (.mk (some _))) => true
  | _ => false

theorem extract_condition_none_of_no_plain_value (attrs : List JSXAttr)
    (h : ∀ attr ∈ attrs, attr.name = IF_ATTR → is_plain_expression_value attr.value = false) :
    TransformVisitor.extract_condition_from_attrs attrs = none := by
  induction attrs with
  | nil => rfl
  | cons attr rest ih =>
    obtain ⟨n, v⟩ := attr
    have hrest := fun a ha => h a (List.mem_cons_of_mem _ ha)
    simp only [TransformVisitor.extract_condition_from_attrs]
    by_cases hn : n = IF_ATTR
    · rw [if_pos hn]
      have hv := h ⟨n, v⟩ (List.mem_cons_self _ _) hn
      match v with
      | none => exact ih hrest
      | some (.lit _) => exact ih hrest
      | some (.jsxExprContainer (.mk none)) => exact ih hrest
      | some (.jsxExprContainer (.mk (some _))) =>
        simp [is_plain_expression_value, JSXAttr.value] at hv
    · rw [if_neg hn]
      exact ih hrest

/-- C10.  A `Condition`-tagged element whose `if` attributes (if any) never
carry an expression-container-with-expression value extracts no condition,
and the element is left alone: same tag, same attributes, children folded
like those of any ordinary element. -/
theorem malformed_if_attribute_is_inert (ctx : WrapperType)
    (attrs : List JSXAttr) (children : List JSXElementChild)
    (h : ∀ attr ∈ attrs, attr.name = IF_ATTR → is_plain_expression_value attr.value = false) :
    TransformVisitor.extract_condition_from_attrs attrs = none ∧
    TransformVisitor.fold_jsx_element ctx (.mk (.ident CONDITION_TAG) attrs children) =
      .mk (.ident CONDITION_TAG) attrs (TransformVisitor.fold_children children) := by
  have hnone := extract_condition_none_of_no_plain_value attrs h
  refine ⟨hnone, ?_⟩
  simp [TransformVisitor.fold_jsx_element, hnone]

/-- The three malformed shapes from the claim: a string-literal value, no
value at all, an empty expression container. -/
def demo_bad_if_attrs : List JSXAttr :=
  [.mk "if" (some (.lit (.str "x"))), .mk "if" none,
   .mk "if" (some (.jsxExprContainer (.mk none)))]

/-- Witness for C10 at the three malformed attribute shapes. -/
theorem malformed_if_attribute_is_inert_witness :
    TransformVisitor.extract_condition_from_attrs demo_bad_if_attrs = none ∧
    TransformVisitor.fold_jsx_element .Jsx (.mk (.ident CONDITION_TAG) demo_bad_if_attrs
        [.jsxText "hi"]) =
      .mk (.ident CONDITION_TAG) demo_bad_if_attrs
        (TransformVisitor.fold_children [.jsxText "hi"]) :=
  malformed_if_attribute_is_inert .Jsx demo_bad_if_attrs [.jsxText "hi"] (by decide)

/-- C7, amended.  Switch rewrites never emit the switch-specific marker: the
placeholders they produce (short-circuit mode in `Return`/`Assignment`
context) carry the plain-conditional tag, and parallel mode emits the
fragment wrapper.  The post pass applies the single-non-whitespace-element
fragment-collapsing exactly to expressions carried under the (never produced)
switch marker and returns plain-conditional payloads unmodified. -/
theorem switch_placeholder_tagging :
    (∀ switch_cases else_case,
      (TransformVisitor.create_short_circuit_switch .Return switch_cases else_case).name =
        .ident CONDITION_PLACEHOLDER) ∧
    (∀ switch_cases else_case,
      (TransformVisitor.create_short_circuit_switch .Assignment switch_cases else_case).name =
        .ident CONDITION_PLACEHOLDER) ∧
    (∀ switch_cases else_case,
      (TransformVisitor.create_parallel_switch switch_cases else_case).name =
        .ident REACT_FRAGMENT) ∧
    (∀ e, PostTransformVisitor.fold_expr
        (.jsxElement (.mk (.ident SWITCH_PLACEHOLDER) []
          [.jsxExprContainer (.mk (some e))])) =
      PostTransformVisitor.unwrap_single_element_fragments e) ∧
    (∀ e, PostTransformVisitor.fold_expr
        (.jsxElement (.mk (.ident CONDITION_PLACEHOLDER) []
          [.jsxExprContainer (.mk (some e))])) = e) := by
  refine ⟨fun _ _ => rfl, fun _ _ => rfl, ?_, fun e => ?_, fun e => rfl⟩
  · intro switch_cases else_case
    cases else_case <;> rfl
  · simp only [PostTransformVisitor.fold_expr]
    rw [if_neg (by decide)]
    simp

/-- C4.  With at least one collected normal branch, short-circuit assembly is
selected exactly when the `shortCircuit` flag was extracted, or the context is
`Return`/`Assignment` with at most one normal branch and no else-branch;
otherwise parallel assembly is selected. -/
theorem switch_mode_selection (ctx : WrapperType) (children : List JSXElementChild)
    (short_circuit : Bool)
    (switch_cases : List (Expr × List JSXElementChild))
    (else_case : Option (List JSXElementChild))
    (hcollect : TransformVisitor.collect_switch_cases children = (switch_cases, else_case))
    (hne : switch_cases ≠ []) :
    TransformVisitor.create_switch_transformation ctx children short_circuit =
      if short_circuit = true ∨
          ((ctx = .Return ∨ ctx = .Assignment) ∧ switch_cases.length ≤ 1 ∧
            else_case.isNone = true) then
        TransformVisitor.create_short_circuit_switch ctx switch_cases else_case
      else TransformVisitor.create_parallel_switch switch_cases else_case := by
  obtain ⟨c, cs, rfl⟩ : ∃ c cs, switch_cases = c :: cs := by
    cases switch_cases with
    | nil => exact absurd rfl hne
    | cons c cs => exact ⟨c, cs, rfl⟩
  simp only [TransformVisitor.create_switch_transformation, hcollect]
  cases short_circuit <;> cases ctx <;> cases else_case <;>
    by_cases hlen : cs.length + 1 ≤ 1 <;> simp [hlen]

/-- Witness for C4: a one-case `shortCircuit` switch in `Jsx` context selects
short-circuit assembly. -/
theorem switch_mode_selection_witness :
    TransformVisitor.collect_switch_cases [JSXElementChild.jsxElement demo_switch_case] =
      ([(Expr.ident "a", [JSXElementChild.jsxElement (.mk (.ident "X") [] [])])], none) ∧
    TransformVisitor.create_switch_transformation .Jsx
        [JSXElementChild.jsxElement demo_switch_case] true =
      TransformVisitor.create_short_circuit_switch .Jsx
        [(Expr.ident "a", [JSXElementChild.jsxElement (.mk (.ident "X") [] [])])] none := by
  refine ⟨rfl, ?_⟩
  have h := switch_mode_selection .Jsx [JSXElementChild.jsxElement demo_switch_case] true
    [(Expr.ident "a", [JSXElementChild.jsxElement (.mk (.ident "X") [] [])])] none rfl
    (by simp)
  simpa using h

theorem spec_negated_conjunction_snoc (xs : List Expr) (d : Expr) (h : xs ≠ []) :
    spec_negated_conjunction (xs ++ [d]) =
      .binAnd (spec_negated_conjunction xs) (.unaryBang d) := by
  unfold spec_negated_conjunction
  rw [List.reverse_append]
  simp only [List.reverse_singleton, List.singleton_append]
  cases hx : xs.reverse with
  | nil => exact absurd (List.reverse_eq_nil_iff.mp hx) h
  | cons y ys => rfl

theorem parallel_else_condition_eq_spec (conditions : List Expr) :
    TransformVisitor.parallel_else_condition conditions =
      spec_negated_conjunction conditions := by
  induction conditions using List.reverseRecOn with
  | nil => rfl
  | append_singleton xs d ih =>
    cases xs with
    | nil => rfl
    | cons c rest =>
      have hfold : TransformVisitor.parallel_else_condition (c :: (rest ++ [d])) =
          .binAnd (TransformVisitor.parallel_else_condition (c :: rest)) (.unaryBang d) := by
        simp [TransformVisitor.parallel_else_condition, List.foldl_append]
      calc TransformVisitor.parallel_else_condition ((c :: rest) ++ [d])
          = .binAnd (TransformVisitor.parallel_else_condition (c :: rest)) (.unaryBang d) :=
            hfold
        _ = .binAnd (spec_negated_conjunction (c :: rest)) (.unaryBang d) := by rw [ih]
        _ = spec_negated_conjunction ((c :: rest) ++ [d]) :=
            (spec_negated_conjunction_snoc _ _ (by simp)).symm

/-- C8.  In parallel assembly with an else-branch, the output is exactly the
branch containers — each testing its own uncoerced condition `case.1` — plus a
final else container guarded by the left-associated conjunction of the
negations of those same condition expressions, in source order (the literal
`true` when there are no normal branches). -/
theorem parallel_else_guard (switch_cases : List (Expr × List JSXElementChild))
    (else_children : List JSXElementChild) :
    (TransformVisitor.create_parallel_switch switch_cases (some else_children)).children =
      (switch_cases.map fun case =>
        JSXElementChild.jsxExprContainer (.mk (some (.cond case.1
          (.jsxFragment (.mk case.2)) TransformVisitor.null_expr)))) ++
      [JSXElementChild.jsxExprContainer (.mk (some (.cond
        (spec_negated_conjunction (switch_cases.map Prod.fst))
        (.jsxFragment (.mk else_children)) TransformVisitor.null_expr)))] := by
  simp [TransformVisitor.create_parallel_switch, TransformVisitor.mk_react_fragment_element,
    JSXElement.children, parallel_else_condition_eq_spec]

/-- Does the expression, when it is a fragment, contain only non-whitespace
children? -/
def fragment_children_all_non_whitespace : Expr → Bool
  | .jsxFragment (.mk children) => children.all TransformVisitor.is_non_whitespace_child
  | _ => true

theorem filter_non_whitespace_idem (children : List JSXElementChild) :
    TransformVisitor.filter_non_whitespace_children
        (TransformVisitor.filter_non_whitespace_children children) =
      TransformVisitor.filter_non_whitespace_children children := by
  unfold TransformVisitor.filter_non_whitespace_children
  rw [List.filter_filter]
  exact List.filter_congr fun c _ => by cases hc : TransformVisitor.is_non_whitespace_child c <;> simp [hc]

theorem filter_non_whitespace_all (children : List JSXElementChild) :
    (TransformVisitor.filter_non_whitespace_children children).all
      TransformVisitor.is_non_whitespace_child = true := by
  simp only [TransformVisitor.filter_non_whitespace_children, List.all_eq_true,
    List.mem_filter]
  exact fun c hc => hc.2

theorem case_children_expr_all_non_whitespace (children : List JSXElementChild) :
    fragment_children_all_non_whitespace
      (TransformVisitor.case_children_expr children) = true := by
  have hall := filter_non_whitespace_all children
  simp only [TransformVisitor.case_children_expr]
  cases hf : TransformVisitor.filter_non_whitespace_children children with
  | nil => simp [fragment_children_all_non_whitespace]
  | cons first rest =>
    rw [hf] at hall
    cases rest with
    | nil =>
      cases first with
      | jsxElement e => simp [fragment_children_all_non_whitespace]
      | jsxFragment f => simpa [fragment_children_all_non_whitespace] using hall
      | jsxExprContainer c => simpa [fragment_children_all_non_whitespace] using hall
      | jsxText s => simpa [fragment_children_all_non_whitespace] using hall
    | cons second rest2 => simpa [fragment_children_all_non_whitespace] using hall

/-- C9, amended.  Whitespace-only text children are excluded from single-child
counts, and parallel assembly keeps a branch's children verbatim (whitespace
included); but short-circuit branch packaging is built from the
whitespace-filtered children only, so its groupings contain no whitespace-only
text child. -/
theorem whitespace_kept_in_parallel_only :
    (∀ switch_cases : List (Expr × List JSXElementChild),
      (TransformVisitor.create_parallel_switch switch_cases none).children =
        switch_cases.map fun case =>
          JSXElementChild.jsxExprContainer (.mk (some (.cond case.1
            (.jsxFragment (.mk case.2)) TransformVisitor.null_expr)))) ∧
    (∀ children, TransformVisitor.case_children_expr children =
      TransformVisitor.case_children_expr
        (TransformVisitor.filter_non_whitespace_children children)) ∧
    (∀ children, fragment_children_all_non_whitespace
      (TransformVisitor.case_children_expr children) = true) := by
  refine ⟨fun switch_cases => ?_, fun children => ?_,
    case_children_expr_all_non_whitespace⟩
  · simp [TransformVisitor.create_parallel_switch,
      TransformVisitor.mk_react_fragment_element, JSXElement.children]
  · simp only [TransformVisitor.case_children_expr, filter_non_whitespace_idem]

theorem collect_loop_else_eq (children : List JSXElementChild) :
    ∀ acc els, (TransformVisitor.collect_switch_cases_loop acc els children).2 =
      (children.reverse.findSome? spec_else_case_children).or els := by
  induction children with
  | nil =>
    intro acc els
    simp [TransformVisitor.collect_switch_cases_loop]
  | cons ch rest ih =>
    intro acc els
    rw [List.reverse_cons, List.findSome?_append, Option.or_assoc]
    have hsingle : List.findSome? spec_else_case_children [ch] =
        spec_else_case_children ch := by
      cases hc : spec_else_case_children ch <;> simp [List.findSome?_cons, hc]
    rw [hsingle]
    cases ch with
    | jsxElement element =>
      by_cases hcase : TransformVisitor.is_switch_case_element element = true
      · cases hext : TransformVisitor.extract_condition_from_attrs element.attrs with
        | some c =>
          simp [TransformVisitor.collect_switch_cases_loop, spec_else_case_children,
            hcase, hext, ih, Option.or]
        | none =>
          by_cases helse : TransformVisitor.has_else_attr element.attrs = true <;>
            simp [TransformVisitor.collect_switch_cases_loop, spec_else_case_children,
              hcase, hext, helse, ih, Option.or]
      · simp [TransformVisitor.collect_switch_cases_loop, spec_else_case_children,
          hcase, ih, Option.or]
    | jsxFragment frag =>
      simp [TransformVisitor.collect_switch_cases_loop, spec_else_case_children, ih,
        Option.or]
    | jsxExprContainer container =>
      simp [TransformVisitor.collect_switch_cases_loop, spec_else_case_children, ih,
        Option.or]
    | jsxText s =>
      simp [TransformVisitor.collect_switch_cases_loop, spec_else_case_children, ih,
        Option.or]

/-- C5, amended.  Case collection records the LAST else-marked case in source
order, not the first: each else-case encountered overwrites the recorded
else-branch. -/
theorem last_else_case_wins (children : List JSXElementChild) :
    (TransformVisitor.collect_switch_cases children).2 =
      spec_last_else_children children := by
  have h := collect_loop_else_eq children [] none
  simpa [TransformVisitor.collect_switch_cases, spec_last_else_children,
    Option.or_none] using h

/-- `<Switch.Case else>A</Switch.Case>`. -/
def demo_else_case_A : JSXElement :=
  .mk (.jsxMemberExpr "Switch" "Case") [.mk "else" none] [.jsxText "A"]

/-- `<Switch.Case else>B</Switch.Case>`. -/
def demo_else_case_B : JSXElement :=
  .mk (.jsxMemberExpr "Switch" "Case") [.mk "else" none] [.jsxText "B"]

/-- The text of the single text child recorded, used to separate the two
possible recorded else-branches. -/
def recorded_else_text : Option (List JSXElementChild) → String
  | some [.jsxText s] => s
  | _ => ""

/-- C5, counterexample.  With two else-marked cases, the recorded else-branch
is the second one's children, not the first's. -/
theorem first_else_case_not_recorded :
    (TransformVisitor.collect_switch_cases
        [.jsxElement demo_else_case_A, .jsxElement demo_else_case_B]).2 =
      some [.jsxText "B"] ∧
    (TransformVisitor.collect_switch_cases
        [.jsxElement demo_else_case_A, .jsxElement demo_else_case_B]).2 ≠
      some [.jsxText "A"] :=
  ⟨rfl, fun h => absurd (congrArg recorded_else_text h) (by decide)⟩

mutual

theorem fold_expr_id : ∀ (ctx : WrapperType) (e : Expr),
    tag_free_expr CONDITION_TAG e = true → tag_free_expr SWITCH_TAG e = true →
    TransformVisitor.fold_expr ctx e = e
  | ctx, .jsxElement elem, h1, h2 => by
    simp only [tag_free_expr] at h1 h2
    simp only [TransformVisitor.fold_expr, fold_jsx_element_id ctx elem h1 h2]
  | ctx, .jsxFragment frag, h1, h2 => by
    simp only [tag_free_expr] at h1 h2
    simp only [TransformVisitor.fold_expr, fold_jsx_fragment_id frag h1 h2]
  | ctx, .cond t c a, h1, h2 => by
    simp only [tag_free_expr, Bool.and_eq_true] at h1 h2
    simp only [TransformVisitor.fold_expr, fold_expr_id ctx t h1.1.1 h2.1.1,
      fold_expr_id ctx c h1.1.2 h2.1.2, fold_expr_id ctx a h1.2 h2.2]
  | ctx, .call callee args, h1, h2 => by
    simp only [tag_free_expr, Bool.and_eq_true] at h1 h2
    simp only [TransformVisitor.fold_expr, fold_expr_id ctx callee h1.1 h2.1,
      fold_expr_list_id ctx args h1.2 h2.2]
  | ctx, .paren e, h1, h2 => by
    simp only [tag_free_expr] at h1 h2
    simp only [TransformVisitor.fold_expr, fold_expr_id ctx e h1 h2]
  | ctx, .unaryBang arg, h1, h2 => by
    simp only [tag_free_expr] at h1 h2
    simp only [TransformVisitor.fold_expr, fold_expr_id ctx arg h1 h2]
  | ctx, .binAnd l r, h1, h2 => by
    simp only [tag_free_expr, Bool.and_eq_true] at h1 h2
    simp only [TransformVisitor.fold_expr, fold_expr_id ctx l h1.1 h2.1,
      fold_expr_id ctx r h1.2 h2.2]
  | ctx, .assign target r, h1, h2 => by
    simp only [tag_free_expr] at h1 h2
    simp only [TransformVisitor.fold_expr, fold_expr_id .Assignment r h1 h2]
  | _, .ident _, _, _ => rfl
  | _, .lit _, _, _ => rfl

theorem fold_jsx_element_id : ∀ (ctx : WrapperType) (elem : JSXElement),
    tag_free_element CONDITION_TAG elem = true → tag_free_element SWITCH_TAG elem = true →
    TransformVisitor.fold_jsx_element ctx elem = elem
  | ctx, .mk name attrs children, h1, h2 => by
    simp only [tag_free_element, Bool.and_eq_true, Bool.not_eq_true',
      decide_eq_false_iff_not] at h1 h2
    have hch := fold_children_id children h1.2 h2.2
    cases name with
    | ident sym =>
      have hs1 : ¬(sym = CONDITION_TAG) := fun h => h1.1.1 (by rw [h])
      have hs2 : ¬(sym = SWITCH_TAG) := fun h => h2.1.1 (by rw [h])
      simp [TransformVisitor.fold_jsx_element, hs1, hs2, hch]
    | jsxMemberExpr obj prop =>
      simp [TransformVisitor.fold_jsx_element, hch]

theorem fold_jsx_element_child_id : ∀ (child : JSXElementChild),
    tag_free_child CONDITION_TAG child = true → tag_free_child SWITCH_TAG child = true →
    TransformVisitor.fold_jsx_element_child child = child
  | .jsxElement elem, h1, h2 => by
    simp only [tag_free_child] at h1 h2
    simp only [TransformVisitor.fold_jsx_element_child, fold_jsx_element_id .Jsx elem h1 h2]
  | .jsxFragment frag, h1, h2 => by
    simp only [tag_free_child] at h1 h2
    simp only [TransformVisitor.fold_jsx_element_child, fold_jsx_fragment_id frag h1 h2]
  | .jsxExprContainer container, h1, h2 => by
    simp only [tag_free_child] at h1 h2
    simp only [TransformVisitor.fold_jsx_element_child,
      fold_jsx_expr_container_id container h1 h2]
  | .jsxText _, _, _ => rfl

theorem fold_jsx_fragment_id : ∀ (frag : JSXFragment),
    tag_free_fragment CONDITION_TAG frag = true → tag_free_fragment SWITCH_TAG frag = true →
    TransformVisitor.fold_jsx_fragment frag = frag
  | .mk children, h1, h2 => by
    simp only [tag_free_fragment] at h1 h2
    simp only [TransformVisitor.fold_jsx_fragment, fold_children_id children h1 h2]

theorem fold_jsx_expr_container_id : ∀ (container : JSXExprContainer),
    tag_free_container CONDITION_TAG container = true →
    tag_free_container SWITCH_TAG container = true →
    TransformVisitor.fold_jsx_expr_container container = container
  | .mk none, _, _ => rfl
  | .mk (some e), h1, h2 => by
    simp only [tag_free_container] at h1 h2
    simp only [TransformVisitor.fold_jsx_expr_container, fold_expr_id .Jsx e h1 h2]

theorem fold_children_id : ∀ (children : List JSXElementChild),
    tag_free_children CONDITION_TAG children = true →
    tag_free_children SWITCH_TAG children = true →
    TransformVisitor.fold_children children = children
  | [], _, _ => rfl
  | child :: rest, h1, h2 => by
    simp only [tag_free_children, Bool.and_eq_true] at h1 h2
    simp only [TransformVisitor.fold_children, fold_jsx_element_child_id child h1.1 h2.1,
      fold_children_id rest h1.2 h2.2]

theorem fold_expr_list_id : ∀ (ctx : WrapperType) (es : List Expr),
    tag_free_expr_list CONDITION_TAG es = true → tag_free_expr_list SWITCH_TAG es = true →
    TransformVisitor.fold_expr_list ctx es = es
  | _, [], _, _ => rfl
  | ctx, e :: rest, h1, h2 => by
    simp only [tag_free_expr_list, Bool.and_eq_true] at h1 h2
    simp only [TransformVisitor.fold_expr_list, fold_expr_id ctx e h1.1 h2.1,
      fold_expr_list_id ctx rest h1.2 h2.2]

end

theorem fold_stmt_id (s : Stmt)
    (h1 : tag_free_stmt CONDITION_TAG s = true) (h2 : tag_free_stmt SWITCH_TAG s = true) :
    TransformVisitor.fold_stmt s = s := by
  cases s with
  | returnStmt arg =>
    cases arg with
    | none => rfl
    | some e =>
      simp only [tag_free_stmt] at h1 h2
      simp [TransformVisitor.fold_stmt, fold_expr_id .Return e h1 h2]
  | varDeclarator init =>
    cases init with
    | none => rfl
    | some e =>
      simp only [tag_free_stmt] at h1 h2
      simp [TransformVisitor.fold_stmt, fold_expr_id .Assignment e h1 h2]
  | exprStmt e =>
    simp only [tag_free_stmt] at h1 h2
    simp [TransformVisitor.fold_stmt, fold_expr_id .Jsx e h1 h2]

theorem fold_program_id : ∀ (p : Program),
    tag_free_program CONDITION_TAG p = true → tag_free_program SWITCH_TAG p = true →
    TransformVisitor.fold_program p = p
  | [], _, _ => rfl
  | s :: rest, h1, h2 => by
    simp only [tag_free_program, List.all_cons, Bool.and_eq_true] at h1 h2
    have hrest := fold_program_id rest h1.2 h2.2
    simp only [TransformVisitor.fold_program, List.map_cons] at hrest ⊢
    rw [fold_stmt_id s h1.1 h2.1, hrest]

theorem paren_fixup_not_cond (inner : Expr)
    (hnc : ∀ t c a, inner ≠ .cond t c a) :
    PostTransformVisitor.paren_fixup inner = .paren inner := by
  cases inner with
  | cond t c a => exact absurd rfl (hnc t c a)
  | jsxElement elem => rfl
  | jsxFragment frag => rfl
  | call callee args => rfl
  | paren e => rfl
  | unaryBang arg => rfl
  | binAnd l r => rfl
  | assign target r => rfl
  | ident s => rfl
  | lit l => rfl

mutual

theorem post_expr_id : ∀ (e : Expr),
    tag_free_expr CONDITION_PLACEHOLDER e = true →
    tag_free_expr SWITCH_PLACEHOLDER e = true →
    paren_cond_free_expr e = true →
    PostTransformVisitor.fold_expr e = e
  | .jsxElement (.mk name attrs children), h1, h2, h3 => by
    simp only [tag_free_expr, tag_free_element, Bool.and_eq_true, Bool.not_eq_true',
      decide_eq_false_iff_not] at h1 h2
    simp only [paren_cond_free_expr, paren_cond_free_element, Bool.and_eq_true] at h3
    simp only [PostTransformVisitor.fold_expr]
    rw [if_neg h1.1.1, if_neg h2.1.1]
    simp only [PostTransformVisitor.fold_jsx_element,
      post_children_id children h1.2 h2.2 h3.2]
  | .jsxFragment frag, h1, h2, h3 => by
    simp only [tag_free_expr] at h1 h2
    simp only [paren_cond_free_expr] at h3
    simp only [PostTransformVisitor.fold_expr, post_fragment_id frag h1 h2 h3]
  | .cond t c a, h1, h2, h3 => by
    simp only [tag_free_expr, Bool.and_eq_true] at h1 h2
    simp only [paren_cond_free_expr, Bool.and_eq_true] at h3
    simp only [PostTransformVisitor.fold_expr, post_expr_id t h1.1.1 h2.1.1 h3.1.1,
      post_expr_id c h1.1.2 h2.1.2 h3.1.2, post_expr_id a h1.2 h2.2 h3.2]
  | .call callee args, h1, h2, h3 => by
    simp only [tag_free_expr, Bool.and_eq_true] at h1 h2
    simp only [paren_cond_free_expr, Bool.and_eq_true] at h3
    simp only [PostTransformVisitor.fold_expr, post_expr_id callee h1.1 h2.1 h3.1,
      post_expr_list_id args h1.2 h2.2 h3.2]
  | .paren inner, h1, h2, h3 => by
    simp only [tag_free_expr] at h1 h2
    have step : PostTransformVisitor.fold_expr (.paren inner) =
        PostTransformVisitor.paren_fixup (PostTransformVisitor.fold_expr inner) := rfl
    cases inner with
    | cond t c a => simp [paren_cond_free_expr] at h3
    | jsxElement elem =>
      rw [step, post_expr_id (.jsxElement elem) h1 h2
        (by simpa [paren_cond_free_expr] using h3)]
      exact paren_fixup_not_cond _ (fun t c a h => nomatch h)
    | jsxFragment frag =>
      rw [step, post_expr_id (.jsxFragment frag) h1 h2
        (by simpa [paren_cond_free_expr] using h3)]
      exact paren_fixup_not_cond _ (fun t c a h => nomatch h)
    | call callee args =>
      rw [step, post_expr_id (.call callee args) h1 h2
        (by simpa [paren_cond_free_expr] using h3)]
      exact paren_fixup_not_cond _ (fun t c a h => nomatch h)
    | paren e =>
      rw [step, post_expr_id (.paren e) h1 h2
        (by simpa [paren_cond_free_expr] using h3)]
      exact paren_fixup_not_cond _ (fun t c a h => nomatch h)
    | unaryBang arg =>
      rw [step, post_expr_id (.unaryBang arg) h1 h2
        (by simpa [paren_cond_free_expr] using h3)]
      exact paren_fixup_not_cond _ (fun t c a h => nomatch h)
    | binAnd l r =>
      rw [step, post_expr_id (.binAnd l r) h1 h2
        (by simpa [paren_cond_free_expr] using h3)]
      exact paren_fixup_not_cond _ (fun t c a h => nomatch h)
    | assign target r =>
      rw [step, post_expr_id (.assign target r) h1 h2
        (by simpa [paren_cond_free_expr] using h3)]
      exact paren_fixup_not_cond _ (fun t c a h => nomatch h)
    | ident s =>
      rw [step]
      exact paren_fixup_not_cond _ (fun t c a h => nomatch h)
    | lit l =>
      rw [step]
      exact paren_fixup_not_cond _ (fun t c a h => nomatch h)
  | .unaryBang arg, h1, h2, h3 => by
    simp only [tag_free_expr] at h1 h2
    simp only [paren_cond_free_expr] at h3
    simp only [PostTransformVisitor.fold_expr, post_expr_id arg h1 h2 h3]
  | .binAnd l r, h1, h2, h3 => by
    simp only [tag_free_expr, Bool.and_eq_true] at h1 h2
    simp only [paren_cond_free_expr, Bool.and_eq_true] at h3
    simp only [PostTransformVisitor.fold_expr, post_expr_id l h1.1 h2.1 h3.1,
      post_expr_id r h1.2 h2.2 h3.2]
  | .assign target r, h1, h2, h3 => by
    simp only [tag_free_expr] at h1 h2
    simp only [paren_cond_free_expr] at h3
    simp only [PostTransformVisitor.fold_expr, post_expr_id r h1 h2 h3]
  | .ident _, _, _, _ => rfl
  | .lit _, _, _, _ => rfl

theorem post_child_id : ∀ (child : JSXElementChild),
    tag_free_child CONDITION_PLACEHOLDER child = true →
    tag_free_child SWITCH_PLACEHOLDER child = true →
    paren_cond_free_child child = true →
    PostTransformVisitor.fold_jsx_element_child child = child
  | .jsxElement elem, h1, h2, h3 => by
    simp only [tag_free_child] at h1 h2
    simp only [paren_cond_free_child] at h3
    simp only [PostTransformVisitor.fold_jsx_element_child, post_element_id elem h1 h2 h3]
  | .jsxFragment frag, h1, h2, h3 => by
    simp only [tag_free_child] at h1 h2
    simp only [paren_cond_free_child] at h3
    simp only [PostTransformVisitor.fold_jsx_element_child, post_fragment_id frag h1 h2 h3]
  | .jsxExprContainer container, h1, h2, h3 => by
    simp only [tag_free_child] at h1 h2
    simp only [paren_cond_free_child] at h3
    simp only [PostTransformVisitor.fold_jsx_element_child,
      post_container_id container h1 h2 h3]
  | .jsxText _, _, _, _ => rfl

theorem post_element_id : ∀ (elem : JSXElement),
    tag_free_element CONDITION_PLACEHOLDER elem = true →
    tag_free_element SWITCH_PLACEHOLDER elem = true →
    paren_cond_free_element elem = true →
    PostTransformVisitor.fold_jsx_element elem = elem
  | .mk name attrs children, h1, h2, h3 => by
    simp only [tag_free_element, Bool.and_eq_true] at h1 h2
    simp only [paren_cond_free_element, Bool.and_eq_true] at h3
    simp only [PostTransformVisitor.fold_jsx_element,
      post_children_id children h1.2 h2.2 h3.2]

theorem post_fragment_id : ∀ (frag : JSXFragment),
    tag_free_fragment CONDITION_PLACEHOLDER frag = true →
    tag_free_fragment SWITCH_PLACEHOLDER frag = true →
    paren_cond_free_fragment frag = true →
    PostTransformVisitor.fold_jsx_fragment frag = frag
  | .mk children, h1, h2, h3 => by
    simp only [tag_free_fragment] at h1 h2
    simp only [paren_cond_free_fragment] at h3
    simp only [PostTransformVisitor.fold_jsx_fragment, post_children_id children h1 h2 h3]

theorem post_container_id : ∀ (container : JSXExprContainer),
    tag_free_container CONDITION_PLACEHOLDER container = true →
    tag_free_container SWITCH_PLACEHOLDER container = true →
    paren_cond_free_container container = true →
    PostTransformVisitor.fold_jsx_expr_container container = container
  | .mk none, _, _, _ => rfl
  | .mk (some e), h1, h2, h3 => by
    simp only [tag_free_container] at h1 h2
    simp only [paren_cond_free_container] at h3
    simp only [PostTransformVisitor.fold_jsx_expr_container, post_expr_id e h1 h2 h3]

theorem post_children_id : ∀ (children : List JSXElementChild),
    tag_free_children CONDITION_PLACEHOLDER children = true →
    tag_free_children SWITCH_PLACEHOLDER children = true →
    paren_cond_free_children children = true →
    PostTransformVisitor.fold_children children = children
  | [], _, _, _ => rfl
  | child :: rest, h1, h2, h3 => by
    simp only [tag_free_children, Bool.and_eq_true] at h1 h2
    simp only [paren_cond_free_children, Bool.and_eq_true] at h3
    simp only [PostTransformVisitor.fold_children, post_child_id child h1.1 h2.1 h3.1,
      post_children_id rest h1.2 h2.2 h3.2]

theorem post_expr_list_id : ∀ (es : List Expr),
    tag_free_expr_list CONDITION_PLACEHOLDER es = true →
    tag_free_expr_list SWITCH_PLACEHOLDER es = true →
    paren_cond_free_expr_list es = true →
    PostTransformVisitor.fold_expr_list es = es
  | [], _, _, _ => rfl
  | e :: rest, h1, h2, h3 => by
    simp only [tag_free_expr_list, Bool.and_eq_true] at h1 h2
    simp only [paren_cond_free_expr_list, Bool.and_eq_true] at h3
    simp only [PostTransformVisitor.fold_expr_list, post_expr_id e h1.1 h2.1 h3.1,
      post_expr_list_id rest h1.2 h2.2 h3.2]

end

theorem post_stmt_id (s : Stmt)
    (h1 : tag_free_stmt CONDITION_PLACEHOLDER s = true)
    (h2 : tag_free_stmt SWITCH_PLACEHOLDER s = true)
    (h3 : paren_cond_free_stmt s = true) :
    PostTransformVisitor.fold_stmt s = s := by
  cases s with
  | returnStmt arg =>
    cases arg with
    | none => rfl
    | some e =>
      simp only [tag_free_stmt] at h1 h2
      simp only [paren_cond_free_stmt] at h3
      simp [PostTransformVisitor.fold_stmt, post_expr_id e h1 h2 h3]
  | varDeclarator init =>
    cases init with
    | none => rfl
    | some e =>
      simp only [tag_free_stmt] at h1 h2
      simp only [paren_cond_free_stmt] at h3
      simp [PostTransformVisitor.fold_stmt, post_expr_id e h1 h2 h3]
  | exprStmt e =>
    simp only [tag_free_stmt] at h1 h2
    simp only [paren_cond_free_stmt] at h3
    simp [PostTransformVisitor.fold_stmt, post_expr_id e h1 h2 h3]

theorem post_program_id : ∀ (p : Program),
    tag_free_program CONDITION_PLACEHOLDER p = true →
    tag_free_program SWITCH_PLACEHOLDER p = true →
    paren_cond_free_program p = true →
    PostTransformVisitor.fold_program p = p
  | [], _, _, _ => rfl
  | s :: rest, h1, h2, h3 => by
    simp only [tag_free_program, paren_cond_free_program, List.all_cons,
      Bool.and_eq_true] at h1 h2 h3
    have hrest := post_program_id rest h1.2 h2.2 h3.2
    simp only [PostTransformVisitor.fold_program, List.map_cons] at hrest ⊢
    rw [post_stmt_id s h1.1 h2.1 h3.1, hrest]

/-- C6, amended.  A tree containing neither directive tag, no
placeholder-marker tag, and no parenthesized conditional expression is
returned unchanged by both passes.  (Directive-freeness alone is not enough:
the post pass re-parenthesizes hand-written `(cond ? a : b)` expressions and
strips placeholder-tagged elements whether or not the primary pass produced
them.) -/
theorem identity_on_inert_trees (p : Program)
    (h1 : tag_free_program CONDITION_TAG p = true)
    (h2 : tag_free_program SWITCH_TAG p = true)
    (h3 : placeholder_free_program p = true)
    (h4 : paren_cond_free_program p = true) :
    process_transform p = p := by
  simp only [placeholder_free_program, Bool.and_eq_true] at h3
  unfold process_transform
  rw [fold_program_id p h1 h2, post_program_id p h3.1 h3.2 h4]

/-- Witness for C6's amended theorem: a small directive-free tree. -/
theorem identity_on_inert_trees_witness :
    process_transform
        [Stmt.exprStmt (.jsxElement (.mk (.ident "div") [] [.jsxText "hello"]))] =
      [Stmt.exprStmt (.jsxElement (.mk (.ident "div") [] [.jsxText "hello"]))] :=
  identity_on_inert_trees
    [Stmt.exprStmt (.jsxElement (.mk (.ident "div") [] [.jsxText "hello"]))]
    rfl rfl rfl rfl

theorem tag_free_children_iff (t : String) : ∀ (children : List JSXElementChild),
    tag_free_children t children = true ↔ ∀ c ∈ children, tag_free_child t c = true
  | [] => by simp [tag_free_children]
  | child :: rest => by
    simp [tag_free_children, Bool.and_eq_true, tag_free_children_iff t rest]

theorem tag_free_attrs_iff (t : String) : ∀ (attrs : List JSXAttr),
    tag_free_attrs t attrs = true ↔ ∀ a ∈ attrs, tag_free_attr t a = true
  | [] => by simp [tag_free_attrs]
  | attr :: rest => by
    simp [tag_free_attrs, Bool.and_eq_true, tag_free_attrs_iff t rest]

theorem tag_free_expr_list_iff (t : String) : ∀ (es : List Expr),
    tag_free_expr_list t es = true ↔ ∀ e ∈ es, tag_free_expr t e = true
  | [] => by simp [tag_free_expr_list]
  | e :: rest => by
    simp [tag_free_expr_list, Bool.and_eq_true, tag_free_expr_list_iff t rest]

theorem tag_free_filter_non_whitespace (t : String) (children : List JSXElementChild)
    (h : tag_free_children t children = true) :
    tag_free_children t (TransformVisitor.filter_non_whitespace_children children) = true := by
  rw [tag_free_children_iff] at h ⊢
  intro c hc
  exact h c (List.mem_of_mem_filter hc)

theorem tag_free_extract_condition (t : String) : ∀ (attrs : List JSXAttr) (c : Expr),
    tag_free_attrs t attrs = true →
    TransformVisitor.extract_condition_from_attrs attrs = some c →
    tag_free_expr t c = true
  | [], c, _, hext => by simp [TransformVisitor.extract_condition_from_attrs] at hext
  | .mk n v :: rest, c, h, hext => by
    simp only [tag_free_attrs, Bool.and_eq_true] at h
    simp only [TransformVisitor.extract_condition_from_attrs] at hext
    by_cases hn : n = IF_ATTR
    · rw [if_pos hn] at hext
      match v, h.1, hext with
      | none, _, hext => exact tag_free_extract_condition t rest c h.2 hext
      | some (.lit _), _, hext => exact tag_free_extract_condition t rest c h.2 hext
      | some (.jsxExprContainer (.mk none)), _, hext =>
        exact tag_free_extract_condition t rest c h.2 hext
      | some (.jsxExprContainer (.mk (some e))), ha, hext =>
        cases hext
        simpa [tag_free_attr, tag_free_container] using ha
    · rw [if_neg hn] at hext
      exact tag_free_extract_condition t rest c h.2 hext

theorem paren_fixup_tag_free (t : String) (inner : Expr)
    (h : tag_free_expr t inner = true) :
    tag_free_expr t (PostTransformVisitor.paren_fixup inner) = true := by
  cases inner with
  | cond test cons alt =>
    simp only [tag_free_expr, Bool.and_eq_true] at h
    simp only [PostTransformVisitor.paren_fixup]
    split <;> simp [tag_free_expr, h.1.1, h.1.2, h.2]
  | jsxElement elem => simpa [PostTransformVisitor.paren_fixup, tag_free_expr] using h
  | jsxFragment frag => simpa [PostTransformVisitor.paren_fixup, tag_free_expr] using h
  | call callee args => simpa [PostTransformVisitor.paren_fixup, tag_free_expr] using h
  | paren e => simpa [PostTransformVisitor.paren_fixup, tag_free_expr] using h
  | unaryBang arg => simpa [PostTransformVisitor.paren_fixup, tag_free_expr] using h
  | binAnd l r => simpa [PostTransformVisitor.paren_fixup, tag_free_expr] using h
  | assign target r => simpa [PostTransformVisitor.paren_fixup, tag_free_expr] using h
  | ident s => simp [PostTransformVisitor.paren_fixup, tag_free_expr]
  | lit l => simp [PostTransformVisitor.paren_fixup, tag_free_expr]

theorem unwrap_tag_free (t : String) : ∀ (e : Expr), tag_free_expr t e = true →
    tag_free_expr t (PostTransformVisitor.unwrap_single_element_fragments e) = true
  | .cond test cons alt, h => by
    simp only [tag_free_expr, Bool.and_eq_true] at h
    have halt := unwrap_tag_free t alt h.2
    simp only [PostTransformVisitor.unwrap_single_element_fragments]
    simp only [tag_free_expr, Bool.and_eq_true]
    refine ⟨⟨h.1.1, ?_⟩, halt⟩
    cases cons with
    | jsxFragment frag =>
      obtain ⟨children⟩ := frag
      have hch : tag_free_children t children = true := by
        simpa [tag_free_expr, tag_free_fragment] using h.1.2
      show tag_free_expr t
        (if (children.filter TransformVisitor.is_non_whitespace_child).length = 1 then
          match children.find? TransformVisitor.is_non_whitespace_child with
          | some (JSXElementChild.jsxElement element) => Expr.jsxElement element
          | _ => Expr.jsxFragment (.mk children)
        else Expr.jsxFragment (.mk children)) = true
      by_cases hlen : (children.filter TransformVisitor.is_non_whitespace_child).length = 1
      · rw [if_pos hlen]
        cases hfind : children.find? TransformVisitor.is_non_whitespace_child with
        | none => simp [tag_free_expr, tag_free_fragment, hch]
        | some found =>
          cases found with
          | jsxElement el =>
            have hmem := List.mem_of_find?_eq_some hfind
            have hel := (tag_free_children_iff t children).mp hch _ hmem
            simpa [tag_free_expr, tag_free_child] using hel
          | jsxFragment f2 => simp [tag_free_expr, tag_free_fragment, hch]
          | jsxExprContainer c2 => simp [tag_free_expr, tag_free_fragment, hch]
          | jsxText s2 => simp [tag_free_expr, tag_free_fragment, hch]
      · rw [if_neg hlen]
        simp [tag_free_expr, tag_free_fragment, hch]
    | jsxElement elem => exact h.1.2
    | cond a b c => exact h.1.2
    | call f args => exact h.1.2
    | paren e2 => exact h.1.2
    | unaryBang a2 => exact h.1.2
    | binAnd a2 b2 => exact h.1.2
    | assign t2 r2 => exact h.1.2
    | ident s2 => exact h.1.2
    | lit l2 => exact h.1.2
  | .jsxElement elem, h => h
  | .jsxFragment frag, h => h
  | .call callee args, h => h
  | .paren e, h => h
  | .unaryBang arg, h => h
  | .binAnd l r, h => h
  | .assign target r, h => h
  | .ident s, h => h
  | .lit l, h => h

mutual

theorem post_tag_free_expr (t : String) : ∀ (e : Expr), tag_free_expr t e = true →
    tag_free_expr t (PostTransformVisitor.fold_expr e) = true
  | .jsxElement (.mk name attrs children), h => by
    have hgen : tag_free_expr t
        (.jsxElement (PostTransformVisitor.fold_jsx_element (.mk name attrs children))) = true := by
      simpa [tag_free_expr] using
        post_tag_free_element t (.mk name attrs children) (by simpa [tag_free_expr] using h)
    have hch : tag_free_children t children = true := by
      simp only [tag_free_expr, tag_free_element, Bool.and_eq_true] at h
      exact h.2
    simp only [PostTransformVisitor.fold_expr]
    by_cases hcp : name = JSXElementName.ident CONDITION_PLACEHOLDER
    · rw [if_pos hcp]
      cases children with
      | nil => exact hgen
      | cons c rest =>
        cases c with
        | jsxExprContainer container =>
          obtain ⟨oe⟩ := container
          cases oe with
          | none => exact hgen
          | some payload =>
            simp only [tag_free_children, tag_free_child, tag_free_container,
              Bool.and_eq_true] at hch
            exact hch.1
        | jsxElement e0 => exact hgen
        | jsxFragment f0 => exact hgen
        | jsxText s0 => exact hgen
    · rw [if_neg hcp]
      by_cases hsp : name = JSXElementName.ident SWITCH_PLACEHOLDER
      · rw [if_pos hsp]
        cases children with
        | nil => exact hgen
        | cons c rest =>
          cases c with
          | jsxExprContainer container =>
            obtain ⟨oe⟩ := container
            cases oe with
            | none => exact hgen
            | some payload =>
              simp only [tag_free_children, tag_free_child, tag_free_container,
                Bool.and_eq_true] at hch
              exact unwrap_tag_free t payload hch.1
          | jsxElement e0 => exact hgen
          | jsxFragment f0 => exact hgen
          | jsxText s0 => exact hgen
      · rw [if_neg hsp]
        exact hgen
  | .jsxFragment frag, h => by
    simp only [tag_free_expr] at h
    simp only [PostTransformVisitor.fold_expr, tag_free_expr]
    exact post_tag_free_fragment t frag h
  | .cond test cons alt, h => by
    simp only [tag_free_expr, Bool.and_eq_true] at h
    simp only [PostTransformVisitor.fold_expr, tag_free_expr, Bool.and_eq_true]
    exact ⟨⟨post_tag_free_expr t test h.1.1, post_tag_free_expr t cons h.1.2⟩,
      post_tag_free_expr t alt h.2⟩
  | .call callee args, h => by
    simp only [tag_free_expr, Bool.and_eq_true] at h
    simp only [PostTransformVisitor.fold_expr, tag_free_expr, Bool.and_eq_true]
    exact ⟨post_tag_free_expr t callee h.1, post_tag_free_expr_list t args h.2⟩
  | .paren inner, h => by
    simp only [tag_free_expr] at h
    have hin := post_tag_free_expr t inner h
    show tag_free_expr t
      (PostTransformVisitor.paren_fixup (PostTransformVisitor.fold_expr inner)) = true
    exact paren_fixup_tag_free t _ hin
  | .unaryBang arg, h => by
    simp only [tag_free_expr] at h
    simp only [PostTransformVisitor.fold_expr, tag_free_expr]
    exact post_tag_free_expr t arg h
  | .binAnd l r, h => by
    simp only [tag_free_expr, Bool.and_eq_true] at h
    simp only [PostTransformVisitor.fold_expr, tag_free_expr, Bool.and_eq_true]
    exact ⟨post_tag_free_expr t l h.1, post_tag_free_expr t r h.2⟩
  | .assign target r, h => by
    simp only [tag_free_expr] at h
    simp only [PostTransformVisitor.fold_expr, tag_free_expr]
    exact post_tag_free_expr t r h
  | .ident s, h => h
  | .lit l, h => h

theorem post_tag_free_element (t : String) : ∀ (elem : JSXElement),
    tag_free_element t elem = true →
    tag_free_element t (PostTransformVisitor.fold_jsx_element elem) = true
  | .mk name attrs children, h => by
    simp only [tag_free_element, Bool.and_eq_true] at h
    simp only [PostTransformVisitor.fold_jsx_element, tag_free_element, Bool.and_eq_true]
    exact ⟨⟨h.1.1, h.1.2⟩, post_tag_free_children t children h.2⟩

theorem post_tag_free_child (t : String) : ∀ (child : JSXElementChild),
    tag_free_child t child = true →
    tag_free_child t (PostTransformVisitor.fold_jsx_element_child child) = true
  | .jsxElement elem, h => by
    simp only [tag_free_child] at h
    simp only [PostTransformVisitor.fold_jsx_element_child, tag_free_child]
    exact post_tag_free_element t elem h
  | .jsxFragment frag, h => by
    simp only [tag_free_child] at h
    simp only [PostTransformVisitor.fold_jsx_element_child, tag_free_child]
    exact post_tag_free_fragment t frag h
  | .jsxExprContainer container, h => by
    simp only [tag_free_child] at h
    simp only [PostTransformVisitor.fold_jsx_element_child, tag_free_child]
    exact post_tag_free_container t container h
  | .jsxText s, h => h

theorem post_tag_free_fragment (t : String) : ∀ (frag : JSXFragment),
    tag_free_fragment t frag = true →
    tag_free_fragment t (PostTransformVisitor.fold_jsx_fragment frag) = true
  | .mk children, h => by
    simp only [tag_free_fragment] at h
    simp only [PostTransformVisitor.fold_jsx_fragment, tag_free_fragment]
    exact post_tag_free_children t children h

theorem post_tag_free_container (t : String) : ∀ (container : JSXExprContainer),
    tag_free_container t container = true →
    tag_free_container t (PostTransformVisitor.fold_jsx_expr_container container) = true
  | .mk none, h => h
  | .mk (some e), h => by
    simp only [tag_free_container] at h
    simp only [PostTransformVisitor.fold_jsx_expr_container, tag_free_container]
    exact post_tag_free_expr t e h

theorem post_tag_free_children (t : String) : ∀ (children : List JSXElementChild),
    tag_free_children t children = true →
    tag_free_children t (PostTransformVisitor.fold_children children) = true
  | [], h => h
  | child :: rest, h => by
    simp only [tag_free_children, Bool.and_eq_true] at h
    simp only [PostTransformVisitor.fold_children, tag_free_children, Bool.and_eq_true]
    exact ⟨post_tag_free_child t child h.1, post_tag_free_children t rest h.2⟩

theorem post_tag_free_expr_list (t : String) : ∀ (es : List Expr),
    tag_free_expr_list t es = true →
    tag_free_expr_list t (PostTransformVisitor.fold_expr_list es) = true
  | [], h => h
  | e :: rest, h => by
    simp only [tag_free_expr_list, Bool.and_eq_true] at h
    simp only [PostTransformVisitor.fold_expr_list, tag_free_expr_list, Bool.and_eq_true]
    exact ⟨post_tag_free_expr t e h.1, post_tag_free_expr_list t rest h.2⟩

end

theorem post_tag_free_stmt (t : String) (s : Stmt)
    (h : tag_free_stmt t s = true) :
    tag_free_stmt t (PostTransformVisitor.fold_stmt s) = true := by
  cases s with
  | returnStmt arg =>
    cases arg with
    | none => exact h
    | some e =>
      simp only [tag_free_stmt] at h
      simpa [PostTransformVisitor.fold_stmt, tag_free_stmt] using post_tag_free_expr t e h
  | varDeclarator init =>
    cases init with
    | none => exact h
    | some e =>
      simp only [tag_free_stmt] at h
      simpa [PostTransformVisitor.fold_stmt, tag_free_stmt] using post_tag_free_expr t e h
  | exprStmt e =>
    simp only [tag_free_stmt] at h
    simpa [PostTransformVisitor.fold_stmt, tag_free_stmt] using post_tag_free_expr t e h

theorem post_tag_free_program (t : String) : ∀ (p : Program),
    tag_free_program t p = true →
    tag_free_program t (PostTransformVisitor.fold_program p) = true
  | [], h => h
  | s :: rest, h => by
    simp only [tag_free_program, List.all_cons, Bool.and_eq_true] at h
    have hrest := post_tag_free_program t rest h.2
    simp only [PostTransformVisitor.fold_program, List.map_cons, tag_free_program,
      List.all_cons, Bool.and_eq_true] at hrest ⊢
    exact ⟨post_tag_free_stmt t s h.1, hrest⟩

mutual

theorem stripped_of_tag_free_expr : ∀ (e : Expr),
    tag_free_expr CONDITION_PLACEHOLDER e = true → stripped_expr e = true
  | .jsxElement (.mk name attrs children), h => by
    simp only [tag_free_expr] at h
    simp only [stripped_expr]
    have hne : ¬(name = JSXElementName.ident CONDITION_PLACEHOLDER) := by
      simp only [tag_free_element, Bool.and_eq_true, Bool.not_eq_true',
        decide_eq_false_iff_not] at h
      exact h.1.1
    rw [if_neg hne]
    exact stripped_of_tag_free_element (.mk name attrs children) h
  | .jsxFragment frag, h => by
    simp only [tag_free_expr] at h
    simp only [stripped_expr]
    exact stripped_of_tag_free_fragment frag h
  | .cond test cons alt, h => by
    simp only [tag_free_expr, Bool.and_eq_true] at h
    simp only [stripped_expr, Bool.and_eq_true]
    exact ⟨⟨stripped_of_tag_free_expr test h.1.1, stripped_of_tag_free_expr cons h.1.2⟩,
      stripped_of_tag_free_expr alt h.2⟩
  | .call callee args, h => by
    simp only [tag_free_expr, Bool.and_eq_true] at h
    simp only [stripped_expr, Bool.and_eq_true]
    exact ⟨stripped_of_tag_free_expr callee h.1, stripped_of_tag_free_expr_list args h.2⟩
  | .paren inner, h => by
    simp only [tag_free_expr] at h
    simp only [stripped_expr]
    exact stripped_of_tag_free_expr inner h
  | .unaryBang arg, h => by
    simp only [tag_free_expr] at h
    simp only [stripped_expr]
    exact stripped_of_tag_free_expr arg h
  | .binAnd l r, h => by
    simp only [tag_free_expr, Bool.and_eq_true] at h
    simp only [stripped_expr, Bool.and_eq_true]
    exact ⟨stripped_of_tag_free_expr l h.1, stripped_of_tag_free_expr r h.2⟩
  | .assign target r, h => by
    simp only [tag_free_expr] at h
    simp only [stripped_expr]
    exact stripped_of_tag_free_expr r h
  | .ident s, h => rfl
  | .lit l, h => rfl

theorem stripped_of_tag_free_element : ∀ (elem : JSXElement),
    tag_free_element CONDITION_PLACEHOLDER elem = true → stripped_element elem = true
  | .mk name attrs children, h => by
    simp only [tag_free_element, Bool.and_eq_true] at h
    simp only [stripped_element, Bool.and_eq_true]
    exact ⟨⟨h.1.1, h.1.2⟩, stripped_of_tag_free_children children h.2⟩

theorem stripped_of_tag_free_fragment : ∀ (frag : JSXFragment),
    tag_free_fragment CONDITION_PLACEHOLDER frag = true → stripped_fragment frag = true
  | .mk children, h => by
    simp only [tag_free_fragment] at h
    simp only [stripped_fragment]
    exact stripped_of_tag_free_children children h

theorem stripped_of_tag_free_child : ∀ (child : JSXElementChild),
    tag_free_child CONDITION_PLACEHOLDER child = true → stripped_child child = true
  | .jsxElement elem, h => by
    simp only [tag_free_child] at h
    simp only [stripped_child]
    exact stripped_of_tag_free_element elem h
  | .jsxFragment frag, h => by
    simp only [tag_free_child] at h
    simp only [stripped_child]
    exact stripped_of_tag_free_fragment frag h
  | .jsxExprContainer container, h => by
    simp only [tag_free_child] at h
    simp only [stripped_child]
    exact stripped_of_tag_free_container container h
  | .jsxText s, h => rfl

theorem stripped_of_tag_free_container : ∀ (container : JSXExprContainer),
    tag_free_container CONDITION_PLACEHOLDER container = true → stripped_container container = true
  | .mk none, h => rfl
  | .mk (some e), h => by
    simp only [tag_free_container] at h
    simp only [stripped_container]
    exact stripped_of_tag_free_expr e h

theorem stripped_of_tag_free_children : ∀ (children : List JSXElementChild),
    tag_free_children CONDITION_PLACEHOLDER children = true → stripped_children children = true
  | [], h => rfl
  | child :: rest, h => by
    simp only [tag_free_children, Bool.and_eq_true] at h
    simp only [stripped_children, Bool.and_eq_true]
    exact ⟨stripped_of_tag_free_child child h.1, stripped_of_tag_free_children rest h.2⟩

theorem stripped_of_tag_free_expr_list : ∀ (es : List Expr),
    tag_free_expr_list CONDITION_PLACEHOLDER es = true → stripped_expr_list es = true
  | [], h => rfl
  | e :: rest, h => by
    simp only [tag_free_expr_list, Bool.and_eq_true] at h
    simp only [stripped_expr_list, Bool.and_eq_true]
    exact ⟨stripped_of_tag_free_expr e h.1, stripped_of_tag_free_expr_list rest h.2⟩

end

theorem stripped_expr_of_element (elem : JSXElement)
    (h : stripped_element elem = true) : stripped_expr (.jsxElement elem) = true := by
  obtain ⟨name, attrs, children⟩ := elem
  have hne : ¬(name = JSXElementName.ident CONDITION_PLACEHOLDER) := by
    simp only [stripped_element, Bool.and_eq_true, Bool.not_eq_true',
      decide_eq_false_iff_not] at h
    exact h.1.1
  simp only [stripped_expr]
  rw [if_neg hne]
  exact h

theorem stripped_mk_placeholder (payload : Expr)
    (h : tag_free_expr CONDITION_PLACEHOLDER payload = true) :
    stripped_expr (.jsxElement (TransformVisitor.mk_placeholder_element payload)) = true := by
  simp only [TransformVisitor.mk_placeholder_element, stripped_expr, if_pos]
  exact h

theorem tag_free_element_parts (t : String) (element : JSXElement)
    (h : tag_free_element t element = true) :
    tag_free_attrs t element.attrs = true ∧ tag_free_children t element.children = true := by
  obtain ⟨n, a, c⟩ := element
  simp only [tag_free_element, Bool.and_eq_true] at h
  exact ⟨h.1.2, h.2⟩

theorem tag_free_boolean_call (t : String) (c : Expr) (h : tag_free_expr t c = true) :
    tag_free_expr t (TransformVisitor.boolean_call c) = true := by
  simp [TransformVisitor.boolean_call, tag_free_expr, tag_free_expr_list, h]

theorem tag_free_short_circuit_test (t : String) (ctx : WrapperType) (c : Expr)
    (h : tag_free_expr t c = true) :
    tag_free_expr t (TransformVisitor.short_circuit_test ctx c) = true := by
  cases ctx with
  | Jsx => exact tag_free_boolean_call t c h
  | Assignment => exact h
  | Return => exact h

theorem tag_free_case_children_expr (t : String) (children : List JSXElementChild)
    (h : tag_free_children t children = true) :
    tag_free_expr t (TransformVisitor.case_children_expr children) = true := by
  have hf := tag_free_filter_non_whitespace t children h
  simp only [TransformVisitor.case_children_expr]
  cases hfl : TransformVisitor.filter_non_whitespace_children children with
  | nil => simp [tag_free_expr, tag_free_fragment, tag_free_children]
  | cons first rest =>
    rw [hfl] at hf
    cases rest with
    | nil =>
      cases first with
      | jsxElement el =>
        simp only [tag_free_children, tag_free_child, Bool.and_eq_true] at hf
        simpa [tag_free_expr] using hf.1
      | jsxFragment f => simpa [tag_free_expr, tag_free_fragment] using hf
      | jsxExprContainer c2 => simpa [tag_free_expr, tag_free_fragment] using hf
      | jsxText s2 => simpa [tag_free_expr, tag_free_fragment] using hf
    | cons second rest2 => simpa [tag_free_expr, tag_free_fragment] using hf

theorem tag_free_chain (t : String) (ctx : WrapperType) :
    ∀ (cases_ : List (Expr × List JSXElementChild)) (base : Expr),
    (∀ p ∈ cases_, tag_free_expr t p.1 = true ∧ tag_free_children t p.2 = true) →
    tag_free_expr t base = true →
    tag_free_expr t (TransformVisitor.build_short_circuit_chain ctx cases_ base) = true
  | [], base, _, hb => hb
  | (c, ch) :: rest, base, hcases, hb => by
    have hhead := hcases (c, ch) (List.mem_cons_self _ _)
    have hrest := tag_free_chain t ctx rest base
      (fun p hp => hcases p (List.mem_cons_of_mem _ hp)) hb
    simp only [TransformVisitor.build_short_circuit_chain, tag_free_expr, Bool.and_eq_true]
    exact ⟨⟨tag_free_short_circuit_test t ctx c hhead.1,
      tag_free_case_children_expr t ch hhead.2⟩, hrest⟩

theorem tag_free_guard_foldl (t : String) : ∀ (conds : List Expr) (acc : Expr),
    tag_free_expr t acc = true → (∀ c ∈ conds, tag_free_expr t c = true) →
    tag_free_expr t
      (conds.foldl (fun combined c => Expr.binAnd combined (.unaryBang c)) acc) = true
  | [], acc, ha, _ => ha
  | c :: rest, acc, ha, hm => by
    simp only [List.foldl_cons]
    refine tag_free_guard_foldl t rest _ ?_ (fun d hd => hm d (List.mem_cons_of_mem _ hd))
    simp only [tag_free_expr, Bool.and_eq_true]
    exact ⟨ha, hm c (List.mem_cons_self _ _)⟩

theorem tag_free_parallel_guard (t : String) (conds : List Expr)
    (h : ∀ c ∈ conds, tag_free_expr t c = true) :
    tag_free_expr t (TransformVisitor.parallel_else_condition conds) = true := by
  cases conds with
  | nil => rfl
  | cons c rest =>
    simp only [TransformVisitor.parallel_else_condition]
    refine tag_free_guard_foldl t rest _ ?_ (fun d hd => h d (List.mem_cons_of_mem _ hd))
    simpa [tag_free_expr] using h c (List.mem_cons_self _ _)

theorem tag_free_collect_loop (t : String) : ∀ (children : List JSXElementChild)
    (acc : List (Expr × List JSXElementChild)) (els : Option (List JSXElementChild)),
    tag_free_children t children = true →
    (∀ p ∈ acc, tag_free_expr t p.1 = true ∧ tag_free_children t p.2 = true) →
    (∀ ec, els = some ec → tag_free_children t ec = true) →
    (∀ p ∈ (TransformVisitor.collect_switch_cases_loop acc els children).1,
        tag_free_expr t p.1 = true ∧ tag_free_children t p.2 = true) ∧
    (∀ ec, (TransformVisitor.collect_switch_cases_loop acc els children).2 = some ec →
        tag_free_children t ec = true)
  | [], acc, els, _, hacc, hels => ⟨hacc, hels⟩
  | child :: rest, acc, els, h, hacc, hels => by
    simp only [tag_free_children, Bool.and_eq_true] at h
    cases child with
    | jsxElement element =>
      have hparts := tag_free_element_parts t element (by simpa [tag_free_child] using h.1)
      simp only [TransformVisitor.collect_switch_cases_loop]
      by_cases hcase : TransformVisitor.is_switch_case_element element = true
      · rw [if_pos hcase]
        cases hext : TransformVisitor.extract_condition_from_attrs element.attrs with
        | some c =>
          refine tag_free_collect_loop t rest _ els h.2 ?_ hels
          intro p hp
          rcases List.mem_append.mp hp with hp | hp
          · exact hacc p hp
          · have : p = (c, element.children) := by simpa using hp
            subst this
            exact ⟨tag_free_extract_condition t element.attrs c hparts.1 hext, hparts.2⟩
        | none =>
          by_cases helse : TransformVisitor.has_else_attr element.attrs = true
          · rw [if_pos helse]
            refine tag_free_collect_loop t rest acc _ h.2 hacc ?_
            intro ec hec
            cases hec
            exact hparts.2
          · rw [if_neg helse]
            exact tag_free_collect_loop t rest acc els h.2 hacc hels
      · rw [if_neg hcase]
        exact tag_free_collect_loop t rest acc els h.2 hacc hels
    | jsxFragment frag =>
      exact tag_free_collect_loop t rest acc els h.2 hacc hels
    | jsxExprContainer container =>
      exact tag_free_collect_loop t rest acc els h.2 hacc hels
    | jsxText s =>
      exact tag_free_collect_loop t rest acc els h.2 hacc hels

theorem tag_free_collect (t : String) (children : List JSXElementChild)
    (h : tag_free_children t children = true) :
    (∀ p ∈ (TransformVisitor.collect_switch_cases children).1,
        tag_free_expr t p.1 = true ∧ tag_free_children t p.2 = true) ∧
    (∀ ec, (TransformVisitor.collect_switch_cases children).2 = some ec →
        tag_free_children t ec = true) :=
  tag_free_collect_loop t children [] none h (by simp) (by simp)

theorem tag_free_mk_react_fragment (t : String) (cs : List JSXElementChild)
    (hRF : t ≠ REACT_FRAGMENT) (h : tag_free_children t cs = true) :
    tag_free_element t (TransformVisitor.mk_react_fragment_element cs) = true := by
  simp [TransformVisitor.mk_react_fragment_element, tag_free_element, tag_free_attrs,
    Bool.and_eq_true, h, Ne.symm hRF]

theorem tag_free_mk_placeholder (t : String) (payload : Expr)
    (hCP : t ≠ CONDITION_PLACEHOLDER) (h : tag_free_expr t payload = true) :
    tag_free_element t (TransformVisitor.mk_placeholder_element payload) = true := by
  simp [TransformVisitor.mk_placeholder_element, tag_free_element, tag_free_attrs,
    tag_free_children, tag_free_child, tag_free_container, Bool.and_eq_true, h,
    Ne.symm hCP]

theorem tag_free_create_conditional_jsx (t : String) (ctx : WrapperType)
    (c : Expr) (children : List JSXElementChild)
    (hRF : t ≠ REACT_FRAGMENT) (hCP : ctx = .Jsx ∨ t ≠ CONDITION_PLACEHOLDER)
    (hc : tag_free_expr t c = true) (hch : tag_free_children t children = true) :
    tag_free_element t (TransformVisitor.create_conditional_jsx ctx c children) = true := by
  cases ctx with
  | Jsx =>
    simp only [TransformVisitor.create_conditional_jsx]
    apply tag_free_mk_react_fragment t _ hRF
    simp [tag_free_children, tag_free_child, tag_free_container, tag_free_expr,
      tag_free_fragment, tag_free_expr_list, tag_free_boolean_call t c hc, hc, hch]
  | Return =>
    have hCP' : t ≠ CONDITION_PLACEHOLDER := by
      rcases hCP with h | h
      · exact absurd h (by simp)
      · exact h
    simp only [TransformVisitor.create_conditional_jsx]
    apply tag_free_mk_placeholder t _ hCP'
    simp [tag_free_expr, tag_free_fragment, hc, hch]
  | Assignment =>
    have hCP' : t ≠ CONDITION_PLACEHOLDER := by
      rcases hCP with h | h
      · exact absurd h (by simp)
      · exact h
    simp only [TransformVisitor.create_conditional_jsx]
    apply tag_free_mk_placeholder t _ hCP'
    simp [tag_free_expr, tag_free_fragment, tag_free_expr_list,
      tag_free_boolean_call t c hc, hc, hch]

theorem tag_free_create_short_circuit (t : String) (ctx : WrapperType)
    (cases_ : List (Expr × List JSXElementChild)) (els : Option (List JSXElementChild))
    (hRF : t ≠ REACT_FRAGMENT) (hCP : ctx = .Jsx ∨ t ≠ CONDITION_PLACEHOLDER)
    (hcases : ∀ p ∈ cases_, tag_free_expr t p.1 = true ∧ tag_free_children t p.2 = true)
    (hels : ∀ ec, els = some ec → tag_free_children t ec = true) :
    tag_free_element t (TransformVisitor.create_short_circuit_switch ctx cases_ els) = true := by
  cases els with
  | none =>
    have hchain := tag_free_chain t ctx cases_ TransformVisitor.null_expr hcases rfl
    cases ctx with
    | Jsx =>
      simp only [TransformVisitor.create_short_circuit_switch]
      apply tag_free_mk_react_fragment t _ hRF
      simp [tag_free_children, tag_free_child, tag_free_container, hchain]
    | Return =>
      have hCP' : t ≠ CONDITION_PLACEHOLDER := by
        rcases hCP with h | h
        · exact absurd h (by simp)
        · exact h
      exact tag_free_mk_placeholder t _ hCP' hchain
    | Assignment =>
      have hCP' : t ≠ CONDITION_PLACEHOLDER := by
        rcases hCP with h | h
        · exact absurd h (by simp)
        · exact h
      exact tag_free_mk_placeholder t _ hCP' hchain
  | some ec =>
    have hbase := tag_free_case_children_expr t ec (hels ec rfl)
    have hchain := tag_free_chain t ctx cases_ _ hcases hbase
    cases ctx with
    | Jsx =>
      simp only [TransformVisitor.create_short_circuit_switch]
      apply tag_free_mk_react_fragment t _ hRF
      simp [tag_free_children, tag_free_child, tag_free_container, hchain]
    | Return =>
      have hCP' : t ≠ CONDITION_PLACEHOLDER := by
        rcases hCP with h | h
        · exact absurd h (by simp)
        · exact h
      exact tag_free_mk_placeholder t _ hCP' hchain
    | Assignment =>
      have hCP' : t ≠ CONDITION_PLACEHOLDER := by
        rcases hCP with h | h
        · exact absurd h (by simp)
        · exact h
      exact tag_free_mk_placeholder t _ hCP' hchain

theorem tag_free_create_parallel (t : String)
    (cases_ : List (Expr × List JSXElementChild)) (els : Option (List JSXElementChild))
    (hRF : t ≠ REACT_FRAGMENT)
    (hcases : ∀ p ∈ cases_, tag_free_expr t p.1 = true ∧ tag_free_children t p.2 = true)
    (hels : ∀ ec, els = some ec → tag_free_children t ec = true) :
    tag_free_element t (TransformVisitor.create_parallel_switch cases_ els) = true := by
  simp only [TransformVisitor.create_parallel_switch]
  apply tag_free_mk_react_fragment t _ hRF
  have hmain : tag_free_children t (cases_.map fun case =>
      JSXElementChild.jsxExprContainer
        (.mk (some (.cond case.1 (.jsxFragment (.mk case.2))
          TransformVisitor.null_expr)))) = true := by
    rw [tag_free_children_iff]
    intro ch hchm
    obtain ⟨p, hp, rfl⟩ := List.mem_map.mp hchm
    have hpf := hcases p hp
    simp [tag_free_child, tag_free_container, tag_free_expr, tag_free_fragment,
      hpf.1, hpf.2]
  cases els with
  | none => exact hmain
  | some ec =>
    rw [tag_free_children_iff]
    intro ch hchm
    rcases List.mem_append.mp hchm with hchm | hchm
    · exact (tag_free_children_iff t _).mp hmain ch hchm
    · have hguard : tag_free_expr t
          (TransformVisitor.parallel_else_condition (cases_.map Prod.fst)) = true := by
        apply tag_free_parallel_guard
        intro c hcm
        obtain ⟨p, hp, rfl⟩ := List.mem_map.mp hcm
        exact (hcases p hp).1
      have hval : ch = JSXElementChild.jsxExprContainer
          (.mk (some (.cond (TransformVisitor.parallel_else_condition (cases_.map Prod.fst))
            (.jsxFragment (.mk ec)) TransformVisitor.null_expr))) := by
        simpa using hchm
      subst hval
      simp [tag_free_child, tag_free_container, tag_free_expr, tag_free_fragment,
        hguard, hels ec rfl]


theorem tag_free_create_switch_transformation (t : String) (ctx : WrapperType)
    (children : List JSXElementChild) (sc : Bool)
    (hRF : t ≠ REACT_FRAGMENT) (hCP : ctx = .Jsx ∨ t ≠ CONDITION_PLACEHOLDER)
    (hch : tag_free_children t children = true) :
    tag_free_element t (TransformVisitor.create_switch_transformation ctx children sc) = true := by
  have hcol := tag_free_collect t children hch
  have hCP' : ctx = WrapperType.Return ∨ ctx = WrapperType.Assignment →
      t ≠ CONDITION_PLACEHOLDER := by
    intro hctx
    rcases hCP with h | h
    · rcases hctx with hctx | hctx <;> rw [hctx] at h <;> exact absurd h (by simp)
    · exact h
  simp only [TransformVisitor.create_switch_transformation]
  split
  · exact tag_free_mk_react_fragment t [] hRF rfl
  · rename_i x1 x2 ec heq1 heq2
    have hec : tag_free_children t ec = true := hcol.2 ec heq2
    have hfe := tag_free_filter_non_whitespace t ec hec
    cases hfl : TransformVisitor.filter_non_whitespace_children ec with
    | nil =>
      cases ctx with
      | Jsx => exact tag_free_mk_react_fragment t [] hRF rfl
      | Return =>
        exact tag_free_mk_placeholder t (.jsxFragment (.mk [])) (hCP' (Or.inl rfl))
          (by simp [tag_free_expr, tag_free_fragment, tag_free_children])
      | Assignment =>
        exact tag_free_mk_placeholder t (.jsxFragment (.mk [])) (hCP' (Or.inr rfl))
          (by simp [tag_free_expr, tag_free_fragment, tag_free_children])
    | cons first rest =>
      rw [hfl] at hfe
      simp only [tag_free_children, Bool.and_eq_true] at hfe
      cases rest with
      | nil =>
        cases first with
        | jsxElement element =>
          cases ctx with
          | Jsx => simpa [tag_free_child] using hfe.1
          | Return =>
            exact tag_free_mk_placeholder t (.jsxElement element) (hCP' (Or.inl rfl))
              (by simpa [tag_free_expr, tag_free_child] using hfe.1)
          | Assignment =>
            exact tag_free_mk_placeholder t (.jsxElement element) (hCP' (Or.inr rfl))
              (by simpa [tag_free_expr, tag_free_child] using hfe.1)
        | jsxFragment f =>
          cases ctx with
          | Jsx =>
            exact tag_free_mk_react_fragment t [.jsxFragment f] hRF
              (by simp [tag_free_children, hfe.1])
          | Return =>
            exact tag_free_mk_placeholder t (.jsxFragment (.mk [.jsxFragment f]))
              (hCP' (Or.inl rfl))
              (by simp [tag_free_expr, tag_free_fragment, tag_free_children, hfe.1])
          | Assignment =>
            exact tag_free_mk_placeholder t (.jsxFragment (.mk [.jsxFragment f]))
              (hCP' (Or.inr rfl))
              (by simp [tag_free_expr, tag_free_fragment, tag_free_children, hfe.1])
        | jsxExprContainer c2 =>
          cases ctx with
          | Jsx =>
            exact tag_free_mk_react_fragment t [.jsxExprContainer c2] hRF
              (by simp [tag_free_children, hfe.1])
          | Return =>
            exact tag_free_mk_placeholder t (.jsxFragment (.mk [.jsxExprContainer c2]))
              (hCP' (Or.inl rfl))
              (by simp [tag_free_expr, tag_free_fragment, tag_free_children, hfe.1])
          | Assignment =>
            exact tag_free_mk_placeholder t (.jsxFragment (.mk [.jsxExprContainer c2]))
              (hCP' (Or.inr rfl))
              (by simp [tag_free_expr, tag_free_fragment, tag_free_children, hfe.1])
        | jsxText s2 =>
          cases ctx with
          | Jsx =>
            exact tag_free_mk_react_fragment t [.jsxText s2] hRF
              (by simp [tag_free_children, hfe.1])
          | Return =>
            exact tag_free_mk_placeholder t (.jsxFragment (.mk [.jsxText s2]))
              (hCP' (Or.inl rfl))
              (by simp [tag_free_expr, tag_free_fragment, tag_free_children, hfe.1])
          | Assignment =>
            exact tag_free_mk_placeholder t (.jsxFragment (.mk [.jsxText s2]))
              (hCP' (Or.inr rfl))
              (by simp [tag_free_expr, tag_free_fragment, tag_free_children, hfe.1])
      | cons second rest2 =>
        have hcc : tag_free_children t (first :: second :: rest2) = true := by
          simp only [tag_free_children, Bool.and_eq_true] at hfe ⊢; exact hfe
        cases first <;> cases ctx <;>
          first
          | exact tag_free_mk_react_fragment t _ hRF hcc
          | exact tag_free_mk_placeholder t (.jsxFragment (.mk _)) (hCP' (Or.inl rfl))
              (by simp only [tag_free_expr, tag_free_fragment]; exact hcc)
          | exact tag_free_mk_placeholder t (.jsxFragment (.mk _)) (hCP' (Or.inr rfl))
              (by simp only [tag_free_expr, tag_free_fragment]; exact hcc)
  · split
    · exact tag_free_create_short_circuit t ctx _ _ hRF hCP hcol.1 hcol.2
    · exact tag_free_create_parallel t _ _ hRF hcol.1 hcol.2

theorem stripped_create_conditional_jsx (ctx : WrapperType) (c : Expr)
    (children : List JSXElementChild)
    (hc : tag_free_expr CONDITION_PLACEHOLDER c = true)
    (hch : tag_free_children CONDITION_PLACEHOLDER children = true) :
    stripped_expr (.jsxElement (TransformVisitor.create_conditional_jsx ctx c children)) = true := by
  cases ctx with
  | Jsx =>
    apply stripped_expr_of_element
    apply stripped_of_tag_free_element
    exact tag_free_create_conditional_jsx CONDITION_PLACEHOLDER .Jsx c children
      (by decide) (Or.inl rfl) hc hch
  | Return =>
    exact stripped_mk_placeholder
      (.cond c (.jsxFragment (.mk children)) TransformVisitor.null_expr)
      (by simp [tag_free_expr, tag_free_fragment, TransformVisitor.null_expr, hc, hch])
  | Assignment =>
    exact stripped_mk_placeholder
      (.cond (TransformVisitor.boolean_call c) (.jsxFragment (.mk children))
        TransformVisitor.null_expr)
      (by simp [tag_free_expr, tag_free_fragment, tag_free_expr_list,
        TransformVisitor.null_expr, TransformVisitor.boolean_call, hc, hch])

theorem stripped_create_short_circuit (ctx : WrapperType)
    (cases_ : List (Expr × List JSXElementChild)) (els : Option (List JSXElementChild))
    (hcases : ∀ p ∈ cases_, tag_free_expr CONDITION_PLACEHOLDER p.1 = true ∧
      tag_free_children CONDITION_PLACEHOLDER p.2 = true)
    (hels : ∀ ec, els = some ec → tag_free_children CONDITION_PLACEHOLDER ec = true) :
    stripped_expr
      (.jsxElement (TransformVisitor.create_short_circuit_switch ctx cases_ els)) = true := by
  cases ctx with
  | Jsx =>
    apply stripped_expr_of_element
    apply stripped_of_tag_free_element
    exact tag_free_create_short_circuit CONDITION_PLACEHOLDER .Jsx cases_ els
      (by decide) (Or.inl rfl) hcases hels
  | Return =>
    cases els with
    | none =>
      exact stripped_mk_placeholder
        (TransformVisitor.build_short_circuit_chain .Return cases_ TransformVisitor.null_expr)
        (tag_free_chain CONDITION_PLACEHOLDER .Return cases_ _ hcases rfl)
    | some ec =>
      exact stripped_mk_placeholder
        (TransformVisitor.build_short_circuit_chain .Return cases_
          (TransformVisitor.case_children_expr ec))
        (tag_free_chain CONDITION_PLACEHOLDER .Return cases_ _ hcases
          (tag_free_case_children_expr CONDITION_PLACEHOLDER ec (hels ec rfl)))
  | Assignment =>
    cases els with
    | none =>
      exact stripped_mk_placeholder
        (TransformVisitor.build_short_circuit_chain .Assignment cases_
          TransformVisitor.null_expr)
        (tag_free_chain CONDITION_PLACEHOLDER .Assignment cases_ _ hcases rfl)
    | some ec =>
      exact stripped_mk_placeholder
        (TransformVisitor.build_short_circuit_chain .Assignment cases_
          (TransformVisitor.case_children_expr ec))
        (tag_free_chain CONDITION_PLACEHOLDER .Assignment cases_ _ hcases
          (tag_free_case_children_expr CONDITION_PLACEHOLDER ec (hels ec rfl)))

theorem stripped_create_switch (ctx : WrapperType)
    (children : List JSXElementChild) (sc : Bool)
    (hch : tag_free_children CONDITION_PLACEHOLDER children = true) :
    stripped_expr
      (.jsxElement (TransformVisitor.create_switch_transformation ctx children sc)) = true := by
  cases ctx with
  | Jsx =>
    apply stripped_expr_of_element
    apply stripped_of_tag_free_element
    exact tag_free_create_switch_transformation CONDITION_PLACEHOLDER .Jsx children sc
      (by decide) (Or.inl rfl) hch
  | Return =>
    have hcol := tag_free_collect CONDITION_PLACEHOLDER children hch
    simp only [TransformVisitor.create_switch_transformation]
    split
    · decide
    · rename_i x1 x2 ec heq1 heq2
      have hec : tag_free_children CONDITION_PLACEHOLDER ec = true := hcol.2 ec heq2
      have hfe := tag_free_filter_non_whitespace CONDITION_PLACEHOLDER ec hec
      cases hfl : TransformVisitor.filter_non_whitespace_children ec with
      | nil =>
        exact stripped_mk_placeholder (.jsxFragment (.mk []))
          (by simp [tag_free_expr, tag_free_fragment, tag_free_children])
      | cons first rest =>
        rw [hfl] at hfe
        simp only [tag_free_children, Bool.and_eq_true] at hfe
        cases rest with
        | nil =>
          cases first with
          | jsxElement element =>
            exact stripped_mk_placeholder (.jsxElement element)
              (by simpa [tag_free_expr, tag_free_child] using hfe.1)
          | jsxFragment f =>
            exact stripped_mk_placeholder (.jsxFragment (.mk [.jsxFragment f]))
              (by simp [tag_free_expr, tag_free_fragment, tag_free_children, hfe.1])
          | jsxExprContainer c2 =>
            exact stripped_mk_placeholder (.jsxFragment (.mk [.jsxExprContainer c2]))
              (by simp [tag_free_expr, tag_free_fragment, tag_free_children, hfe.1])
          | jsxText s2 =>
            exact stripped_mk_placeholder (.jsxFragment (.mk [.jsxText s2]))
              (by simp [tag_free_expr, tag_free_fragment, tag_free_children, hfe.1])
        | cons second rest2 =>
          have hcc : tag_free_children CONDITION_PLACEHOLDER
              (first :: second :: rest2) = true := by
            simp only [tag_free_children, Bool.and_eq_true] at hfe ⊢; exact hfe
          cases first <;>
            exact stripped_mk_placeholder (.jsxFragment (.mk _))
              (by simp only [tag_free_expr, tag_free_fragment]; exact hcc)
    · split
      · exact stripped_create_short_circuit .Return _ _ hcol.1 hcol.2
      · apply stripped_expr_of_element
        apply stripped_of_tag_free_element
        exact tag_free_create_parallel CONDITION_PLACEHOLDER _ _ (by decide) hcol.1 hcol.2
  | Assignment =>
    have hcol := tag_free_collect CONDITION_PLACEHOLDER children hch
    simp only [TransformVisitor.create_switch_transformation]
    split
    · decide
    · rename_i x1 x2 ec heq1 heq2
      have hec : tag_free_children CONDITION_PLACEHOLDER ec = true := hcol.2 ec heq2
      have hfe := tag_free_filter_non_whitespace CONDITION_PLACEHOLDER ec hec
      cases hfl : TransformVisitor.filter_non_whitespace_children ec with
      | nil =>
        exact stripped_mk_placeholder (.jsxFragment (.mk []))
          (by simp [tag_free_expr, tag_free_fragment, tag_free_children])
      | cons first rest =>
        rw [hfl] at hfe
        simp only [tag_free_children, Bool.and_eq_true] at hfe
        cases rest with
        | nil =>
          cases first with
          | jsxElement element =>
            exact stripped_mk_placeholder (.jsxElement element)
              (by simpa [tag_free_expr, tag_free_child] using hfe.1)
          | jsxFragment f =>
            exact stripped_mk_placeholder (.jsxFragment (.mk [.jsxFragment f]))
              (by simp [tag_free_expr, tag_free_fragment, tag_free_children, hfe.1])
          | jsxExprContainer c2 =>
            exact stripped_mk_placeholder (.jsxFragment (.mk [.jsxExprContainer c2]))
              (by simp [tag_free_expr, tag_free_fragment, tag_free_children, hfe.1])
          | jsxText s2 =>
            exact stripped_mk_placeholder (.jsxFragment (.mk [.jsxText s2]))
              (by simp [tag_free_expr, tag_free_fragment, tag_free_children, hfe.1])
        | cons second rest2 =>
          have hcc : tag_free_children CONDITION_PLACEHOLDER
              (first :: second :: rest2) = true := by
            simp only [tag_free_children, Bool.and_eq_true] at hfe ⊢; exact hfe
          cases first <;>
            exact stripped_mk_placeholder (.jsxFragment (.mk _))
              (by simp only [tag_free_expr, tag_free_fragment]; exact hcc)
    · split
      · exact stripped_create_short_circuit .Assignment _ _ hcol.1 hcol.2
      · apply stripped_expr_of_element
        apply stripped_of_tag_free_element
        exact tag_free_create_parallel CONDITION_PLACEHOLDER _ _ (by decide) hcol.1 hcol.2

mutual

theorem fold_tag_free_expr (t : String) (hRF : t ≠ REACT_FRAGMENT)
    (hCP : t ≠ CONDITION_PLACEHOLDER) : ∀ (ctx : WrapperType) (e : Expr),
    tag_free_expr t e = true → tag_free_expr t (TransformVisitor.fold_expr ctx e) = true
  | ctx, .jsxElement elem, h => by
    simp only [tag_free_expr] at h
    simp only [TransformVisitor.fold_expr, tag_free_expr]
    exact fold_tag_free_element t hRF hCP ctx elem h
  | ctx, .jsxFragment frag, h => by
    simp only [tag_free_expr] at h
    simp only [TransformVisitor.fold_expr, tag_free_expr]
    exact fold_tag_free_fragment t hRF hCP frag h
  | ctx, .cond a b c, h => by
    simp only [tag_free_expr, Bool.and_eq_true] at h
    simp only [TransformVisitor.fold_expr, tag_free_expr, Bool.and_eq_true]
    exact ⟨⟨fold_tag_free_expr t hRF hCP ctx a h.1.1, fold_tag_free_expr t hRF hCP ctx b h.1.2⟩,
      fold_tag_free_expr t hRF hCP ctx c h.2⟩
  | ctx, .call f args, h => by
    simp only [tag_free_expr, Bool.and_eq_true] at h
    simp only [TransformVisitor.fold_expr, tag_free_expr, Bool.and_eq_true]
    exact ⟨fold_tag_free_expr t hRF hCP ctx f h.1,
      fold_tag_free_expr_list t hRF hCP ctx args h.2⟩
  | ctx, .paren e, h => by
    simp only [tag_free_expr] at h
    simp only [TransformVisitor.fold_expr, tag_free_expr]
    exact fold_tag_free_expr t hRF hCP ctx e h
  | ctx, .unaryBang a, h => by
    simp only [tag_free_expr] at h
    simp only [TransformVisitor.fold_expr, tag_free_expr]
    exact fold_tag_free_expr t hRF hCP ctx a h
  | ctx, .binAnd l r, h => by
    simp only [tag_free_expr, Bool.and_eq_true] at h
    simp only [TransformVisitor.fold_expr, tag_free_expr, Bool.and_eq_true]
    exact ⟨fold_tag_free_expr t hRF hCP ctx l h.1, fold_tag_free_expr t hRF hCP ctx r h.2⟩
  | ctx, .assign target r, h => by
    simp only [tag_free_expr] at h
    simp only [TransformVisitor.fold_expr, tag_free_expr]
    exact fold_tag_free_expr t hRF hCP .Assignment r h
  | _, .ident s, h => h
  | _, .lit l, h => h

theorem fold_tag_free_element (t : String) (hRF : t ≠ REACT_FRAGMENT)
    (hCP : t ≠ CONDITION_PLACEHOLDER) : ∀ (ctx : WrapperType) (elem : JSXElement),
    tag_free_element t elem = true →
    tag_free_element t (TransformVisitor.fold_jsx_element ctx elem) = true
  | ctx, .mk name attrs children, h => by
    simp only [tag_free_element, Bool.and_eq_true] at h
    have hgen : tag_free_element t (JSXElement.mk name attrs
        (TransformVisitor.fold_children children)) = true := by
      simp only [tag_free_element, Bool.and_eq_true]
      exact ⟨⟨h.1.1, h.1.2⟩, fold_tag_free_children t hRF hCP children h.2⟩
    simp only [TransformVisitor.fold_jsx_element]
    cases name with
    | jsxMemberExpr o pr => exact hgen
    | ident sym =>
      show tag_free_element t
        (if sym = CONDITION_TAG then
          match TransformVisitor.extract_condition_from_attrs attrs with
          | some condition_expr =>
            TransformVisitor.create_conditional_jsx ctx condition_expr children
          | none =>
            JSXElement.mk (.ident sym) attrs (TransformVisitor.fold_children children)
        else if sym = SWITCH_TAG then
          if TransformVisitor.has_switch_case_children children = true then
            TransformVisitor.create_switch_transformation ctx children
              (TransformVisitor.extract_short_circuit_attr attrs)
          else JSXElement.mk (.ident sym) attrs (TransformVisitor.fold_children children)
        else JSXElement.mk (.ident sym) attrs (TransformVisitor.fold_children children)) = true
      by_cases hcond : sym = CONDITION_TAG
      · rw [if_pos hcond]
        cases hext : TransformVisitor.extract_condition_from_attrs attrs with
        | some c =>
          exact tag_free_create_conditional_jsx t ctx c children hRF (Or.inr hCP)
            (tag_free_extract_condition t attrs c h.1.2 hext) h.2
        | none => exact hgen
      · rw [if_neg hcond]
        by_cases hsw : sym = SWITCH_TAG
        · rw [if_pos hsw]
          by_cases hcase : TransformVisitor.has_switch_case_children children = true
          · rw [if_pos hcase]
            exact tag_free_create_switch_transformation t ctx children _ hRF (Or.inr hCP) h.2
          · rw [if_neg hcase]
            exact hgen
        · rw [if_neg hsw]
          exact hgen

theorem fold_tag_free_child (t : String) (hRF : t ≠ REACT_FRAGMENT)
    (hCP : t ≠ CONDITION_PLACEHOLDER) : ∀ (child : JSXElementChild),
    tag_free_child t child = true →
    tag_free_child t (TransformVisitor.fold_jsx_element_child child) = true
  | .jsxElement elem, h => by
    simp only [tag_free_child] at h
    simp only [TransformVisitor.fold_jsx_element_child, tag_free_child]
    exact fold_tag_free_element t hRF hCP .Jsx elem h
  | .jsxFragment frag, h => by
    simp only [tag_free_child] at h
    simp only [TransformVisitor.fold_jsx_element_child, tag_free_child]
    exact fold_tag_free_fragment t hRF hCP frag h
  | .jsxExprContainer container, h => by
    simp only [tag_free_child] at h
    simp only [TransformVisitor.fold_jsx_element_child, tag_free_child]
    exact fold_tag_free_container t hRF hCP container h
  | .jsxText s, h => h

theorem fold_tag_free_fragment (t : String) (hRF : t ≠ REACT_FRAGMENT)
    (hCP : t ≠ CONDITION_PLACEHOLDER) : ∀ (frag : JSXFragment),
    tag_free_fragment t frag = true →
    tag_free_fragment t (TransformVisitor.fold_jsx_fragment frag) = true
  | .mk children, h => by
    simp only [tag_free_fragment] at h
    simp only [TransformVisitor.fold_jsx_fragment, tag_free_fragment]
    exact fold_tag_free_children t hRF hCP children h

theorem fold_tag_free_container (t : String) (hRF : t ≠ REACT_FRAGMENT)
    (hCP : t ≠ CONDITION_PLACEHOLDER) : ∀ (container : JSXExprContainer),
    tag_free_container t container = true →
    tag_free_container t (TransformVisitor.fold_jsx_expr_container container) = true
  | .mk none, h => h
  | .mk (some e), h => by
    simp only [tag_free_container] at h
    simp only [TransformVisitor.fold_jsx_expr_container, tag_free_container]
    exact fold_tag_free_expr t hRF hCP .Jsx e h

theorem fold_tag_free_children (t : String) (hRF : t ≠ REACT_FRAGMENT)
    (hCP : t ≠ CONDITION_PLACEHOLDER) : ∀ (children : List JSXElementChild),
    tag_free_children t children = true →
    tag_free_children t (TransformVisitor.fold_children children) = true
  | [], h => h
  | child :: rest, h => by
    simp only [tag_free_children, Bool.and_eq_true] at h
    simp only [TransformVisitor.fold_children, tag_free_children, Bool.and_eq_true]
    exact ⟨fold_tag_free_child t hRF hCP child h.1, fold_tag_free_children t hRF hCP rest h.2⟩

theorem fold_tag_free_expr_list (t : String) (hRF : t ≠ REACT_FRAGMENT)
    (hCP : t ≠ CONDITION_PLACEHOLDER) : ∀ (ctx : WrapperType) (es : List Expr),
    tag_free_expr_list t es = true →
    tag_free_expr_list t (TransformVisitor.fold_expr_list ctx es) = true
  | _, [], h => h
  | ctx, e :: rest, h => by
    simp only [tag_free_expr_list, Bool.and_eq_true] at h
    simp only [TransformVisitor.fold_expr_list, tag_free_expr_list, Bool.and_eq_true]
    exact ⟨fold_tag_free_expr t hRF hCP ctx e h.1, fold_tag_free_expr_list t hRF hCP ctx rest h.2⟩

end

theorem fold_tag_free_stmt (t : String) (hRF : t ≠ REACT_FRAGMENT)
    (hCP : t ≠ CONDITION_PLACEHOLDER) (s : Stmt) (h : tag_free_stmt t s = true) :
    tag_free_stmt t (TransformVisitor.fold_stmt s) = true := by
  cases s with
  | returnStmt arg =>
    cases arg with
    | none => exact h
    | some e =>
      simp only [tag_free_stmt] at h
      simpa [TransformVisitor.fold_stmt, tag_free_stmt] using
        fold_tag_free_expr t hRF hCP .Return e h
  | varDeclarator init =>
    cases init with
    | none => exact h
    | some e =>
      simp only [tag_free_stmt] at h
      simpa [TransformVisitor.fold_stmt, tag_free_stmt] using
        fold_tag_free_expr t hRF hCP .Assignment e h
  | exprStmt e =>
    simp only [tag_free_stmt] at h
    simpa [TransformVisitor.fold_stmt, tag_free_stmt] using
      fold_tag_free_expr t hRF hCP .Jsx e h

theorem fold_tag_free_program (t : String) (hRF : t ≠ REACT_FRAGMENT)
    (hCP : t ≠ CONDITION_PLACEHOLDER) : ∀ (p : Program),
    tag_free_program t p = true →
    tag_free_program t (TransformVisitor.fold_program p) = true
  | [], h => h
  | s :: rest, h => by
    simp only [tag_free_program, List.all_cons, Bool.and_eq_true] at h
    have hrest := fold_tag_free_program t hRF hCP rest h.2
    simp only [TransformVisitor.fold_program, List.map_cons, tag_free_program,
      List.all_cons, Bool.and_eq_true] at hrest ⊢
    exact ⟨fold_tag_free_stmt t hRF hCP s h.1, hrest⟩

mutual

theorem fold_stripped_expr : ∀ (ctx : WrapperType) (e : Expr),
    tag_free_expr CONDITION_PLACEHOLDER e = true →
    stripped_expr (TransformVisitor.fold_expr ctx e) = true
  | ctx, .jsxElement elem, h => by
    simp only [tag_free_expr] at h
    simp only [TransformVisitor.fold_expr]
    exact fold_stripped_element_expr ctx elem h
  | ctx, .jsxFragment frag, h => by
    simp only [tag_free_expr] at h
    simp only [TransformVisitor.fold_expr, stripped_expr]
    exact fold_stripped_fragment frag h
  | ctx, .cond a b c, h => by
    simp only [tag_free_expr, Bool.and_eq_true] at h
    simp only [TransformVisitor.fold_expr, stripped_expr, Bool.and_eq_true]
    exact ⟨⟨fold_stripped_expr ctx a h.1.1, fold_stripped_expr ctx b h.1.2⟩,
      fold_stripped_expr ctx c h.2⟩
  | ctx, .call f args, h => by
    simp only [tag_free_expr, Bool.and_eq_true] at h
    simp only [TransformVisitor.fold_expr, stripped_expr, Bool.and_eq_true]
    exact ⟨fold_stripped_expr ctx f h.1, fold_stripped_expr_list ctx args h.2⟩
  | ctx, .paren e, h => by
    simp only [tag_free_expr] at h
    simp only [TransformVisitor.fold_expr, stripped_expr]
    exact fold_stripped_expr ctx e h
  | ctx, .unaryBang a, h => by
    simp only [tag_free_expr] at h
    simp only [TransformVisitor.fold_expr, stripped_expr]
    exact fold_stripped_expr ctx a h
  | ctx, .binAnd l r, h => by
    simp only [tag_free_expr, Bool.and_eq_true] at h
    simp only [TransformVisitor.fold_expr, stripped_expr, Bool.and_eq_true]
    exact ⟨fold_stripped_expr ctx l h.1, fold_stripped_expr ctx r h.2⟩
  | ctx, .assign target r, h => by
    simp only [tag_free_expr] at h
    simp only [TransformVisitor.fold_expr, stripped_expr]
    exact fold_stripped_expr .Assignment r h
  | _, .ident s, h => rfl
  | _, .lit l, h => rfl

theorem fold_stripped_element_expr : ∀ (ctx : WrapperType) (elem : JSXElement),
    tag_free_element CONDITION_PLACEHOLDER elem = true →
    stripped_expr (.jsxElement (TransformVisitor.fold_jsx_element ctx elem)) = true
  | ctx, .mk name attrs children, h => by
    simp only [tag_free_element, Bool.and_eq_true] at h
    have hgen : stripped_expr (.jsxElement (JSXElement.mk name attrs
        (TransformVisitor.fold_children children))) = true := by
      apply stripped_expr_of_element
      simp only [stripped_element, Bool.and_eq_true]
      exact ⟨⟨h.1.1, h.1.2⟩, fold_stripped_children children h.2⟩
    simp only [TransformVisitor.fold_jsx_element]
    cases name with
    | jsxMemberExpr o pr => exact hgen
    | ident sym =>
      show stripped_expr (.jsxElement
        (if sym = CONDITION_TAG then
          match TransformVisitor.extract_condition_from_attrs attrs with
          | some condition_expr =>
            TransformVisitor.create_conditional_jsx ctx condition_expr children
          | none =>
            JSXElement.mk (.ident sym) attrs (TransformVisitor.fold_children children)
        else if sym = SWITCH_TAG then
          if TransformVisitor.has_switch_case_children children = true then
            TransformVisitor.create_switch_transformation ctx children
              (TransformVisitor.extract_short_circuit_attr attrs)
          else JSXElement.mk (.ident sym) attrs (TransformVisitor.fold_children children)
        else JSXElement.mk (.ident sym) attrs (TransformVisitor.fold_children children))) = true
      by_cases hcond : sym = CONDITION_TAG
      · rw [if_pos hcond]
        cases hext : TransformVisitor.extract_condition_from_attrs attrs with
        | some c =>
          exact stripped_create_conditional_jsx ctx c children
            (tag_free_extract_condition CONDITION_PLACEHOLDER attrs c h.1.2 hext) h.2
        | none => exact hgen
      · rw [if_neg hcond]
        by_cases hsw : sym = SWITCH_TAG
        · rw [if_pos hsw]
          by_cases hcase : TransformVisitor.has_switch_case_children children = true
          · rw [if_pos hcase]
            exact stripped_create_switch ctx children _ h.2
          · rw [if_neg hcase]
            exact hgen
        · rw [if_neg hsw]
          exact hgen

theorem fold_stripped_element_child : ∀ (elem : JSXElement),
    tag_free_element CONDITION_PLACEHOLDER elem = true →
    stripped_element (TransformVisitor.fold_jsx_element .Jsx elem) = true
  | .mk name attrs children, h => by
    simp only [tag_free_element, Bool.and_eq_true] at h
    have hgen : stripped_element (JSXElement.mk name attrs
        (TransformVisitor.fold_children children)) = true := by
      simp only [stripped_element, Bool.and_eq_true]
      exact ⟨⟨h.1.1, h.1.2⟩, fold_stripped_children children h.2⟩
    simp only [TransformVisitor.fold_jsx_element]
    cases name with
    | jsxMemberExpr o pr => exact hgen
    | ident sym =>
      show stripped_element
        (if sym = CONDITION_TAG then
          match TransformVisitor.extract_condition_from_attrs attrs with
          | some condition_expr =>
            TransformVisitor.create_conditional_jsx .Jsx condition_expr children
          | none =>
            JSXElement.mk (.ident sym) attrs (TransformVisitor.fold_children children)
        else if sym = SWITCH_TAG then
          if TransformVisitor.has_switch_case_children children = true then
            TransformVisitor.create_switch_transformation .Jsx children
              (TransformVisitor.extract_short_circuit_attr attrs)
          else JSXElement.mk (.ident sym) attrs (TransformVisitor.fold_children children)
        else JSXElement.mk (.ident sym) attrs (TransformVisitor.fold_children children)) = true
      by_cases hcond : sym = CONDITION_TAG
      · rw [if_pos hcond]
        cases hext : TransformVisitor.extract_condition_from_attrs attrs with
        | some c =>
          apply stripped_of_tag_free_element
          exact tag_free_create_conditional_jsx CONDITION_PLACEHOLDER .Jsx c children
            (by decide) (Or.inl rfl)
            (tag_free_extract_condition CONDITION_PLACEHOLDER attrs c h.1.2 hext) h.2
        | none => exact hgen
      · rw [if_neg hcond]
        by_cases hsw : sym = SWITCH_TAG
        · rw [if_pos hsw]
          by_cases hcase : TransformVisitor.has_switch_case_children children = true
          · rw [if_pos hcase]
            apply stripped_of_tag_free_element
            exact tag_free_create_switch_transformation CONDITION_PLACEHOLDER .Jsx children _
              (by decide) (Or.inl rfl) h.2
          · rw [if_neg hcase]
            exact hgen
        · rw [if_neg hsw]
          exact hgen

theorem fold_stripped_child : ∀ (child : JSXElementChild),
    tag_free_child CONDITION_PLACEHOLDER child = true →
    stripped_child (TransformVisitor.fold_jsx_element_child child) = true
  | .jsxElement elem, h => by
    simp only [tag_free_child] at h
    simp only [TransformVisitor.fold_jsx_element_child, stripped_child]
    exact fold_stripped_element_child elem h
  | .jsxFragment frag, h => by
    simp only [tag_free_child] at h
    simp only [TransformVisitor.fold_jsx_element_child, stripped_child]
    exact fold_stripped_fragment frag h
  | .jsxExprContainer container, h => by
    simp only [tag_free_child] at h
    simp only [TransformVisitor.fold_jsx_element_child, stripped_child]
    exact fold_stripped_container container h
  | .jsxText s, h => rfl

theorem fold_stripped_fragment : ∀ (frag : JSXFragment),
    tag_free_fragment CONDITION_PLACEHOLDER frag = true →
    stripped_fragment (TransformVisitor.fold_jsx_fragment frag) = true
  | .mk children, h => by
    simp only [tag_free_fragment] at h
    simp only [TransformVisitor.fold_jsx_fragment, stripped_fragment]
    exact fold_stripped_children children h

theorem fold_stripped_container : ∀ (container : JSXExprContainer),
    tag_free_container CONDITION_PLACEHOLDER container = true →
    stripped_container (TransformVisitor.fold_jsx_expr_container container) = true
  | .mk none, h => rfl
  | .mk (some e), h => by
    simp only [tag_free_container] at h
    simp only [TransformVisitor.fold_jsx_expr_container, stripped_container]
    exact fold_stripped_expr .Jsx e h

theorem fold_stripped_children : ∀ (children : List JSXElementChild),
    tag_free_children CONDITION_PLACEHOLDER children = true →
    stripped_children (TransformVisitor.fold_children children) = true
  | [], h => rfl
  | child :: rest, h => by
    simp only [tag_free_children, Bool.and_eq_true] at h
    simp only [TransformVisitor.fold_children, stripped_children, Bool.and_eq_true]
    exact ⟨fold_stripped_child child h.1, fold_stripped_children rest h.2⟩

theorem fold_stripped_expr_list : ∀ (ctx : WrapperType) (es : List Expr),
    tag_free_expr_list CONDITION_PLACEHOLDER es = true →
    stripped_expr_list (TransformVisitor.fold_expr_list ctx es) = true
  | _, [], h => rfl
  | ctx, e :: rest, h => by
    simp only [tag_free_expr_list, Bool.and_eq_true] at h
    simp only [TransformVisitor.fold_expr_list, stripped_expr_list, Bool.and_eq_true]
    exact ⟨fold_stripped_expr ctx e h.1, fold_stripped_expr_list ctx rest h.2⟩

end

theorem fold_stripped_stmt (s : Stmt)
    (h : tag_free_stmt CONDITION_PLACEHOLDER s = true) :
    stripped_stmt (TransformVisitor.fold_stmt s) = true := by
  cases s with
  | returnStmt arg =>
    cases arg with
    | none => exact h
    | some e =>
      simp only [tag_free_stmt] at h
      simpa [TransformVisitor.fold_stmt, stripped_stmt] using fold_stripped_expr .Return e h
  | varDeclarator init =>
    cases init with
    | none => exact h
    | some e =>
      simp only [tag_free_stmt] at h
      simpa [TransformVisitor.fold_stmt, stripped_stmt] using fold_stripped_expr .Assignment e h
  | exprStmt e =>
    simp only [tag_free_stmt] at h
    simpa [TransformVisitor.fold_stmt, stripped_stmt] using fold_stripped_expr .Jsx e h

theorem fold_stripped_program : ∀ (p : Program),
    tag_free_program CONDITION_PLACEHOLDER p = true →
    stripped_program (TransformVisitor.fold_program p) = true
  | [], h => rfl
  | s :: rest, h => by
    simp only [tag_free_program, List.all_cons, Bool.and_eq_true] at h
    have hrest := fold_stripped_program rest h.2
    simp only [TransformVisitor.fold_program, List.map_cons, stripped_program,
      List.all_cons, Bool.and_eq_true] at hrest ⊢
    exact ⟨fold_stripped_stmt s h.1, hrest⟩

mutual

theorem post_cp_free_expr : ∀ (e : Expr), stripped_expr e = true →
    tag_free_expr SWITCH_PLACEHOLDER e = true →
    tag_free_expr CONDITION_PLACEHOLDER (PostTransformVisitor.fold_expr e) = true
  | .jsxElement (.mk name attrs children), hs, hsp => by
    simp only [PostTransformVisitor.fold_expr]
    by_cases hcp : name = JSXElementName.ident CONDITION_PLACEHOLDER
    · rw [if_pos hcp]
      simp only [stripped_expr] at hs
      rw [if_pos hcp] at hs
      cases children with
      | nil => exact absurd hs (by decide)
      | cons c rest =>
        cases c with
        | jsxExprContainer container =>
          obtain ⟨oe⟩ := container
          cases oe with
          | none => exact absurd hs Bool.false_ne_true
          | some payload => exact hs
        | jsxElement e0 => exact absurd hs Bool.false_ne_true
        | jsxFragment f0 => exact absurd hs Bool.false_ne_true
        | jsxText s0 => exact absurd hs Bool.false_ne_true
    · rw [if_neg hcp]
      have hse : stripped_element (.mk name attrs children) = true := by
        simp only [stripped_expr] at hs
        rw [if_neg hcp] at hs
        exact hs
      by_cases hswp : name = JSXElementName.ident SWITCH_PLACEHOLDER
      · exfalso
        simp only [tag_free_expr, tag_free_element, Bool.and_eq_true, Bool.not_eq_true',
          decide_eq_false_iff_not] at hsp
        exact hsp.1.1 hswp
      · rw [if_neg hswp]
        have hspe : tag_free_element SWITCH_PLACEHOLDER (.mk name attrs children) = true := by
          simpa [tag_free_expr] using hsp
        simpa [tag_free_expr] using
          post_cp_free_element (.mk name attrs children) hse hspe
  | .jsxFragment frag, hs, hsp => by
    simp only [stripped_expr] at hs
    simp only [tag_free_expr] at hsp
    simp only [PostTransformVisitor.fold_expr, tag_free_expr]
    exact post_cp_free_fragment frag hs hsp
  | .cond a b c, hs, hsp => by
    simp only [stripped_expr, Bool.and_eq_true] at hs
    simp only [tag_free_expr, Bool.and_eq_true] at hsp
    simp only [PostTransformVisitor.fold_expr, tag_free_expr, Bool.and_eq_true]
    exact ⟨⟨post_cp_free_expr a hs.1.1 hsp.1.1, post_cp_free_expr b hs.1.2 hsp.1.2⟩,
      post_cp_free_expr c hs.2 hsp.2⟩
  | .call f args, hs, hsp => by
    simp only [stripped_expr, Bool.and_eq_true] at hs
    simp only [tag_free_expr, Bool.and_eq_true] at hsp
    simp only [PostTransformVisitor.fold_expr, tag_free_expr, Bool.and_eq_true]
    exact ⟨post_cp_free_expr f hs.1 hsp.1, post_cp_free_expr_list args hs.2 hsp.2⟩
  | .paren inner, hs, hsp => by
    simp only [stripped_expr] at hs
    simp only [tag_free_expr] at hsp
    show tag_free_expr CONDITION_PLACEHOLDER
      (PostTransformVisitor.paren_fixup (PostTransformVisitor.fold_expr inner)) = true
    exact paren_fixup_tag_free CONDITION_PLACEHOLDER _ (post_cp_free_expr inner hs hsp)
  | .unaryBang a, hs, hsp => by
    simp only [stripped_expr] at hs
    simp only [tag_free_expr] at hsp
    simp only [PostTransformVisitor.fold_expr, tag_free_expr]
    exact post_cp_free_expr a hs hsp
  | .binAnd l r, hs, hsp => by
    simp only [stripped_expr, Bool.and_eq_true] at hs
    simp only [tag_free_expr, Bool.and_eq_true] at hsp
    simp only [PostTransformVisitor.fold_expr, tag_free_expr, Bool.and_eq_true]
    exact ⟨post_cp_free_expr l hs.1 hsp.1, post_cp_free_expr r hs.2 hsp.2⟩
  | .assign target r, hs, hsp => by
    simp only [stripped_expr] at hs
    simp only [tag_free_expr] at hsp
    simp only [PostTransformVisitor.fold_expr, tag_free_expr]
    exact post_cp_free_expr r hs hsp
  | .ident s, hs, hsp => rfl
  | .lit l, hs, hsp => rfl

theorem post_cp_free_element : ∀ (elem : JSXElement), stripped_element elem = true →
    tag_free_element SWITCH_PLACEHOLDER elem = true →
    tag_free_element CONDITION_PLACEHOLDER (PostTransformVisitor.fold_jsx_element elem) = true
  | .mk name attrs children, hs, hsp => by
    simp only [stripped_element, Bool.and_eq_true] at hs
    simp only [tag_free_element, Bool.and_eq_true] at hsp
    simp only [PostTransformVisitor.fold_jsx_element, tag_free_element, Bool.and_eq_true]
    exact ⟨⟨hs.1.1, hs.1.2⟩, post_cp_free_children children hs.2 hsp.2⟩

theorem post_cp_free_child : ∀ (child : JSXElementChild), stripped_child child = true →
    tag_free_child SWITCH_PLACEHOLDER child = true →
    tag_free_child CONDITION_PLACEHOLDER (PostTransformVisitor.fold_jsx_element_child child) = true
  | .jsxElement elem, hs, hsp => by
    simp only [stripped_child] at hs
    simp only [tag_free_child] at hsp
    simp only [PostTransformVisitor.fold_jsx_element_child, tag_free_child]
    exact post_cp_free_element elem hs hsp
  | .jsxFragment frag, hs, hsp => by
    simp only [stripped_child] at hs
    simp only [tag_free_child] at hsp
    simp only [PostTransformVisitor.fold_jsx_element_child, tag_free_child]
    exact post_cp_free_fragment frag hs hsp
  | .jsxExprContainer container, hs, hsp => by
    simp only [stripped_child] at hs
    simp only [tag_free_child] at hsp
    simp only [PostTransformVisitor.fold_jsx_element_child, tag_free_child]
    exact post_cp_free_container container hs hsp
  | .jsxText s, hs, hsp => rfl

theorem post_cp_free_fragment : ∀ (frag : JSXFragment), stripped_fragment frag = true →
    tag_free_fragment SWITCH_PLACEHOLDER frag = true →
    tag_free_fragment CONDITION_PLACEHOLDER (PostTransformVisitor.fold_jsx_fragment frag) = true
  | .mk children, hs, hsp => by
    simp only [stripped_fragment] at hs
    simp only [tag_free_fragment] at hsp
    simp only [PostTransformVisitor.fold_jsx_fragment, tag_free_fragment]
    exact post_cp_free_children children hs hsp

theorem post_cp_free_container : ∀ (container : JSXExprContainer),
    stripped_container container = true →
    tag_free_container SWITCH_PLACEHOLDER container = true →
    tag_free_container CONDITION_PLACEHOLDER
      (PostTransformVisitor.fold_jsx_expr_container container) = true
  | .mk none, hs, hsp => rfl
  | .mk (some e), hs, hsp => by
    simp only [stripped_container] at hs
    simp only [tag_free_container] at hsp
    simp only [PostTransformVisitor.fold_jsx_expr_container, tag_free_container]
    exact post_cp_free_expr e hs hsp

theorem post_cp_free_children : ∀ (children : List JSXElementChild),
    stripped_children children = true →
    tag_free_children SWITCH_PLACEHOLDER children = true →
    tag_free_children CONDITION_PLACEHOLDER
      (PostTransformVisitor.fold_children children) = true
  | [], hs, hsp => rfl
  | child :: rest, hs, hsp => by
    simp only [stripped_children, Bool.and_eq_true] at hs
    simp only [tag_free_children, Bool.and_eq_true] at hsp
    simp only [PostTransformVisitor.fold_children, tag_free_children, Bool.and_eq_true]
    exact ⟨post_cp_free_child child hs.1 hsp.1, post_cp_free_children rest hs.2 hsp.2⟩

theorem post_cp_free_expr_list : ∀ (es : List Expr), stripped_expr_list es = true →
    tag_free_expr_list SWITCH_PLACEHOLDER es = true →
    tag_free_expr_list CONDITION_PLACEHOLDER (PostTransformVisitor.fold_expr_list es) = true
  | [], hs, hsp => rfl
  | e :: rest, hs, hsp => by
    simp only [stripped_expr_list, Bool.and_eq_true] at hs
    simp only [tag_free_expr_list, Bool.and_eq_true] at hsp
    simp only [PostTransformVisitor.fold_expr_list, tag_free_expr_list, Bool.and_eq_true]
    exact ⟨post_cp_free_expr e hs.1 hsp.1, post_cp_free_expr_list rest hs.2 hsp.2⟩

end

theorem post_cp_free_stmt (s : Stmt) (hs : stripped_stmt s = true)
    (hsp : tag_free_stmt SWITCH_PLACEHOLDER s = true) :
    tag_free_stmt CONDITION_PLACEHOLDER (PostTransformVisitor.fold_stmt s) = true := by
  cases s with
  | returnStmt arg =>
    cases arg with
    | none => exact hs
    | some e =>
      simp only [stripped_stmt] at hs
      simp only [tag_free_stmt] at hsp
      simpa [PostTransformVisitor.fold_stmt, tag_free_stmt] using post_cp_free_expr e hs hsp
  | varDeclarator init =>
    cases init with
    | none => exact hs
    | some e =>
      simp only [stripped_stmt] at hs
      simp only [tag_free_stmt] at hsp
      simpa [PostTransformVisitor.fold_stmt, tag_free_stmt] using post_cp_free_expr e hs hsp
  | exprStmt e =>
    simp only [stripped_stmt] at hs
    simp only [tag_free_stmt] at hsp
    simpa [PostTransformVisitor.fold_stmt, tag_free_stmt] using post_cp_free_expr e hs hsp

theorem post_cp_free_program : ∀ (p : Program), stripped_program p = true →
    tag_free_program SWITCH_PLACEHOLDER p = true →
    tag_free_program CONDITION_PLACEHOLDER (PostTransformVisitor.fold_program p) = true
  | [], hs, hsp => rfl
  | s :: rest, hs, hsp => by
    simp only [stripped_program, List.all_cons, Bool.and_eq_true] at hs
    simp only [tag_free_program, List.all_cons, Bool.and_eq_true] at hsp
    have hrest := post_cp_free_program rest hs.2 hsp.2
    simp only [PostTransformVisitor.fold_program, List.map_cons, tag_free_program,
      List.all_cons, Bool.and_eq_true] at hrest ⊢
    exact ⟨post_cp_free_stmt s hs.1 hsp.1, hrest⟩

/-- **C2** (amended): for every input tree that is itself free of both
placeholder-marker tags, the output of the primary rewrite followed by the
post pass is again free of both placeholder-marker tags — the pipeline never
leaks a placeholder it created.  (The unamended claim, quantified over
arbitrary inputs, is refuted by `input_placeholder_survives`: a
placeholder-tagged element already present in the input at a child position
is not stripped.) -/
theorem no_placeholder_leakage (p : Program)
    (h : placeholder_free_program p = true) :
    placeholder_free_program (process_transform p) = true := by
  simp only [placeholder_free_program, Bool.and_eq_true] at h ⊢
  have hstr : stripped_program (TransformVisitor.fold_program p) = true :=
    fold_stripped_program p h.1
  have hsp1 : tag_free_program SWITCH_PLACEHOLDER (TransformVisitor.fold_program p) = true :=
    fold_tag_free_program SWITCH_PLACEHOLDER (by decide) (by decide) p h.2
  simp only [process_transform]
  exact ⟨post_cp_free_program (TransformVisitor.fold_program p) hstr hsp1,
    post_tag_free_program SWITCH_PLACEHOLDER _ hsp1⟩

/-- Closed instance of `no_placeholder_leakage`: the demo `Condition`
element (which the pipeline really rewrites through a placeholder) goes in
placeholder-free and comes out placeholder-free. -/
theorem no_placeholder_leakage_witness :
    placeholder_free_program [Stmt.returnStmt (some (.jsxElement demo_condition_element))] = true ∧
    placeholder_free_program
      (process_transform
        [Stmt.returnStmt (some (.jsxElement demo_condition_element))]) = true :=
  ⟨by decide, no_placeholder_leakage _ (by decide)⟩
